import Mathlib

/-!
Shallow embedding of src/json-rpc/tools/xml2json.py.

The program converts a proprietary XML schema (handlers, methods, params)
into OpenRPC-like JSON documents.  We model:
  - Python values (strings, ints, bools, None, lists, insertion-ordered
    dicts) as the inductive type PyVal; dicts are association lists that
    keep insertion order and update-in-place semantics, as Python dicts do;
  - XML elements (lxml Element) as the inductive type Element;
  - uncaught Python exceptions (KeyError, ValueError, TypeError) as the
    error side of Except PyErr;
  - the recursive tree walk with an explicit fuel parameter (first Nat
    argument of every recursive function).  Fuel exhaustion is reported as
    the artificial error PyErr.fuel, which the real program cannot produce;
    every theorem below either supplies enough concrete fuel or quantifies
    over the fuel;
  - print diagnostics are dropped (they do not affect results), and file
    system writes of convertSubsystem are modelled as an effect list.
-/

/-- Uncaught Python exceptions of the script, plus the artificial
fuel-exhaustion marker of the embedding. -/
inductive PyErr where
  | keyError : String → PyErr
  | valueError : String → PyErr
  | typeError : String → PyErr
  | fuel : PyErr
deriving DecidableEq, Repr

/-- Python values as they occur in this script.  Dicts are modelled as
association lists in insertion order (Python dicts preserve insertion
order; updating an existing key keeps its position). -/
inductive PyVal where
  | str : String → PyVal
  | int : Int → PyVal
  | bool : Bool → PyVal
  | none : PyVal
  | list : List PyVal → PyVal
  | dict : List (PyVal × PyVal) → PyVal
deriving Repr

/-- A Python dict in insertion order.  Keys in this script are always
hashable scalars (strings, or ints for coerced choice values). -/
abbrev Obj := List (PyVal × PyVal)

/-- Equality of Python dict keys.  Only scalar keys occur in this script
(container values are unhashable in Python and cannot be dict keys).
Python's numeric cross-type equality (True == 1) never arises here because
all keys of one dict come from one coercion path. -/
def pyKeyBeq : PyVal → PyVal → Bool
  | .str a, .str b => a == b
  | .int a, .int b => a == b
  | .bool a, .bool b => a == b
  | .none, .none => true
  | _, _ => false

/-- Python d.get(k): first matching key, if any. -/
def dGet : Obj → PyVal → Option PyVal
  | [], _ => Option.none
  | (k, v) :: rest, key => if pyKeyBeq k key then some v else dGet rest key

/-- Python k in d. -/
def dHas (o : Obj) (k : PyVal) : Bool := (dGet o k).isSome

/-- Python d[k] = v: overwrite in place, or append a new key at the end. -/
def dSet : Obj → PyVal → PyVal → Obj
  | [], key, val => [(key, val)]
  | (k, v) :: rest, key, val =>
    if pyKeyBeq k key then (k, val) :: rest else (k, v) :: dSet rest key val

/-- Removal of a key (keys are unique in a Python dict, so removing the
first match is enough). -/
def dRemove : Obj → PyVal → Obj
  | [], _ => []
  | (k, v) :: rest, key => if pyKeyBeq k key then rest else (k, v) :: dRemove rest key

/-- Python d.update(other): set the keys of other in iteration order. -/
def dUpdate (o : Obj) : Obj → Obj
  | [] => o
  | (k, v) :: rest => dUpdate (dSet o k v) rest

/-- Rendering of a key for a KeyError message. -/
def keyName : PyVal → String
  | .str s => s
  | _ => "key"

/-- Python d.pop(k): the value and the dict without the key; KeyError when
the key is absent. -/
def dPop (o : Obj) (k : PyVal) : Except PyErr (PyVal × Obj) :=
  match dGet o k with
  | some v => .ok (v, dRemove o k)
  | Option.none => .error (.keyError (keyName k))

/-- Python del d[k]: KeyError when the key is absent. -/
def dDel (o : Obj) (k : PyVal) : Except PyErr Obj :=
  match dGet o k with
  | some _ => .ok (dRemove o k)
  | Option.none => .error (.keyError (keyName k))

/-- String-keyed get, the common case in this script. -/
def sget (o : Obj) (k : String) : Option PyVal := dGet o (.str k)

/-- String-keyed set. -/
def sset (o : Obj) (k : String) (v : PyVal) : Obj := dSet o (.str k) v

/-- String-keyed membership. -/
def shas (o : Obj) (k : String) : Bool := dHas o (.str k)

/-- Python truthiness for the values of this script. -/
def PyVal.truthy : PyVal → Bool
  | .str s => s != ""
  | .int n => n != 0
  | .bool b => b
  | .none => false
  | .list xs => !xs.isEmpty
  | .dict xs => !xs.isEmpty

/-- Truthiness of an optional attribute string: absent or empty is falsy. -/
def truthyOpt : Option String → Bool
  | Option.none => false
  | some s => s != ""

/-- Whitespace characters stripped by Python str.strip (the common
ones). -/
def isSpaceChar (c : Char) : Bool :=
  c == ' ' || c == '\t' || c == '\n' || c == '\r'

/-- Removal of leading whitespace from a character list. -/
def dropLeadingSpaces : List Char → List Char
  | [] => []
  | c :: rest => if isSpaceChar c then dropLeadingSpaces rest else c :: rest

/-- Python s.strip(): remove leading and trailing whitespace. -/
def pyStrip (s : String) : String :=
  ⟨(dropLeadingSpaces (dropLeadingSpaces s.data.reverse).reverse)⟩

/-- Parse a nonempty all-digit character list as a Nat. -/
def parseDigitsAux : List Char → Nat → Option Nat
  | [], acc => some acc
  | c :: rest, acc =>
    if c.isDigit then parseDigitsAux rest (acc * 10 + (c.toNat - 48))
    else Option.none

/-- Decimal digits to a number; None when empty or not all digits. -/
def parseDigits : List Char → Option Nat
  | [] => Option.none
  | cs => parseDigitsAux cs 0

/-- Python int(s) on a string: optional surrounding whitespace, optional
sign, then decimal digits; None models the ValueError case.  (Underscore
digit grouping is not modelled; it does not occur in the schemas.) -/
def pyInt (s : String) : Option Int :=
  match (pyStrip s).data with
  | [] => Option.none
  | c :: rest =>
    if c == '-' then (parseDigits rest).map (fun n => -(n : Int))
    else if c == '+' then (parseDigits rest).map (fun n => (n : Int))
    else (parseDigits (c :: rest)).map (fun n => (n : Int))

/-- Split a character list on commas (Python s.split with a
single-character separator). -/
def splitCommaChars : List Char → List Char → List String
  | [], cur => [⟨cur.reverse⟩]
  | c :: rest, cur =>
    if c == ',' then (⟨cur.reverse⟩ : String) :: splitCommaChars rest []
    else splitCommaChars rest (c :: cur)

/-- Python s.split(","). -/
def pySplitComma (s : String) : List String := splitCommaChars s.data []

/-- Leading-segment test on character lists, for the substring check. -/
def charsLeadMatch : List Char → List Char → Bool
  | [], _ => true
  | _ :: _, [] => false
  | a :: as, b :: bs => a == b && charsLeadMatch as bs

/-- Occurrence of sub as a contiguous run of cs. -/
def charsContain (sub : List Char) : List Char → Bool
  | [] => charsLeadMatch sub []
  | c :: rest => charsLeadMatch sub (c :: rest) || charsContain sub rest

/-- Python substring test: sub in s. -/
def strContains (s sub : String) : Bool := charsContain sub.data s.data

/-- An lxml element: tag, attributes (document order), child elements. -/
inductive Element where
  | mk : String → List (String × String) → List Element → Element
deriving Repr

/-- Tag of an element. -/
def Element.tag : Element → String
  | .mk t _ _ => t

/-- Attribute list of an element. -/
def Element.attrib : Element → List (String × String)
  | .mk _ a _ => a

/-- Child elements, Python elem.getchildren(). -/
def Element.children : Element → List Element
  | .mk _ _ c => c

/-- Python elem.attrib.get(k): the attribute value, if present. -/
def aGet (e : Element) (k : String) : Option String :=
  (e.attrib.find? (fun p => p.1 == k)).map (fun p => p.2)

/-- Python elem.attrib.get(k, d). -/
def aGetD (e : Element) (k d : String) : String := (aGet e k).getD d

/-- Python elem.find(t): the first child with the given tag. -/
def pyFind (e : Element) (t : String) : Option Element :=
  e.children.find? (fun c => c.tag == t)

/-- Python elem.findall(t): all children with the given tag. -/
def pyFindAll (e : Element) (t : String) : List Element :=
  e.children.filter (fun c => c.tag == t)

/-- The type field of a ParamType entry: a single JSON type name or a
tuple of alternatives, as in the source table. -/
inductive JsonTy where
  | single : String → JsonTy
  | multi : List String → JsonTy
deriving DecidableEq, Repr

/-- Python truthiness of the type field ("" is falsy, a nonempty tuple is
truthy). -/
def JsonTy.truthy : JsonTy → Bool
  | .single s => s != ""
  | .multi xs => !xs.isEmpty

/-- Python "array" in t: substring test on a string, membership on a
tuple. -/
def JsonTy.containsArray : JsonTy → Bool
  | .single s => strContains s "array"
  | .multi xs => xs.contains "array"

/-- The JSON value emitted for the type field (json.dumps turns a tuple
into an array). -/
def JsonTy.toPyVal : JsonTy → PyVal
  | .single s => .str s
  | .multi xs => .list (xs.map PyVal.str)

/-- Rendering of the type inside the informational result name
(f-string interpolation; for a tuple Python would also print quotes, a
purely cosmetic difference not modelled). -/
def JsonTy.render : JsonTy → String
  | .single s => s
  | .multi xs => "(" ++ String.intercalate ", " xs ++ ")"

/-- The ParamType named tuple: (type, comment, pattern), defaults
("", "", ""). -/
structure ParamType where
  type : JsonTy
  comment : String
  pattern : String
deriving DecidableEq, Repr

/-- ParamType() with all defaults. -/
def defaultParamType : ParamType := ⟨JsonTy.single "", "", ""⟩

/-- The datetime regex of the source (braces written as hex escapes). -/
def datetimePattern : String :=
  "^[0-9]\x7b4\x7d-[0-9]\x7b2\x7d-[0-9]\x7b2\x7d [0-9]\x7b2\x7d:[0-9]\x7b2\x7d(:[0-9]\x7b2\x7d)?$"

/-- The paramTypeMapping table of the source, in source order.  The
source dict literal repeats the key "list, str" with an identical value;
both occurrences are kept (lookup takes the first match, which equals
what the Python dict stores). -/
def paramTypeMapping : List (String × ParamType) := [
  ("any", defaultParamType),
  ("str", ⟨JsonTy.single "string", "", ""⟩),
  ("srt", ⟨JsonTy.single "string", "", ""⟩),
  ("str_int", ⟨JsonTy.single "string", "", "^[0-9]+$"⟩),
  ("int", ⟨JsonTy.single "number", "", ""⟩),
  ("float", ⟨JsonTy.single "number", "", ""⟩),
  ("str_float", ⟨JsonTy.single "str", "float as string", ""⟩),
  ("datetime", ⟨JsonTy.single "string", "datetime", datetimePattern⟩),
  ("datetime, float", ⟨JsonTy.multi ["string", "number"], "datetime or number", ""⟩),
  ("datetime, null", ⟨JsonTy.multi ["string", "null"], "datetime or null", datetimePattern⟩),
  ("bool", ⟨JsonTy.single "boolean", "", ""⟩),
  ("true_if_exists", ⟨JsonTy.single "boolean", "true if exists", ""⟩),
  ("list", ⟨JsonTy.single "array", "", ""⟩),
  ("list, str", ⟨JsonTy.multi ["array", "string"], "", ""⟩),
  ("dict", ⟨JsonTy.single "object", "", ""⟩),
  ("null", ⟨JsonTy.single "null", "", ""⟩),
  ("int, null", ⟨JsonTy.multi ["number", "null"], "int or null", ""⟩),
  ("dynamic", ⟨JsonTy.single "", "dynamic type", ""⟩),
  ("list, str", ⟨JsonTy.multi ["array", "string"], "", ""⟩),
  ("list, int", ⟨JsonTy.multi ["array", "number"], "array or int", ""⟩),
  ("int, list", ⟨JsonTy.multi ["number", "array"], "int or array", ""⟩),
  ("str, list", ⟨JsonTy.multi ["string", "array"], "string or array", ""⟩)]

/-- Dictionary lookup in the type table; None models the KeyError case of
paramTypeMapping[t]. -/
def lookupParamType (t : String) : Option ParamType :=
  (paramTypeMapping.find? (fun p => p.1 == t)).map (fun p => p.2)

/-- Attribute value as a Python value (absent attribute is None). -/
def optStr : Option String → PyVal
  | some s => .str s
  | Option.none => .none

/-- Coercion applied to a collected default value (source lines 121-128):
the strings "true"/"false" become booleans, other strings become ints when
int() succeeds, anything else is kept (int(default) on an already-int
default is the identity). -/
def coerceDefault : PyVal → PyVal
  | .str s =>
    if s == "true" then .bool true
    else if s == "false" then .bool false
    else
      match pyInt s with
      | some k => .int k
      | Option.none => .str s
  | v => v

/-- The loop of getChoiceJsonParam over the element children (source
lines 91-112), carrying values, comments and default.  Returning ok none
models the silent early return on a non-choice child or a child without a
value; ValueError models an unparseable int(value). -/
def choiceLoop : List Element → List PyVal → Obj → Option PyVal →
    Except PyErr (Option (List PyVal × Obj × Option PyVal))
  | [], values, comments, dflt => .ok (some (values, comments, dflt))
  | c :: rest, values, comments, dflt =>
    if c.tag != "choice" then .ok Option.none
    else
      match aGet c "value" with
      | Option.none => .ok Option.none
      | some v =>
        let coerced : Except PyErr PyVal :=
          if truthyOpt (aGet c "type") then
            if aGet c "type" == some "int" then
              match pyInt v with
              | some k => .ok (.int k)
              | Option.none => .error (.valueError v)
            else .ok (.str v)
          else .ok (.str v)
        match coerced with
        | .error e => .error e
        | .ok value =>
          let comments2 :=
            if truthyOpt (aGet c "comment") then
              dSet comments value (.str (aGetD c "comment" ""))
            else comments
          let dflt2 := if truthyOpt (aGet c "default") then some value else dflt
          choiceLoop rest (values ++ [value]) comments2 dflt2

/-- getChoiceJsonParam (source lines 85-132): convert a choice parameter
into an enum fragment with optional name, description, default and
value_comment. -/
def getChoiceJsonParam (param : Element) : Except PyErr (Option Obj) :=
  let paramName := aGet param "name"
  let description := aGet param "comment"
  match choiceLoop param.children [] [] Option.none with
  | .error e => .error e
  | .ok Option.none => .ok Option.none
  | .ok (some (values, comments, dflt)) =>
    let paramJson : Obj := []
    let paramJson :=
      if truthyOpt paramName then sset paramJson "name" (.str ((paramName).getD "")) else paramJson
    let paramJson :=
      match description with
      | some d => sset paramJson "description" (.str d)
      | Option.none => paramJson
    let paramJson := sset paramJson "enum" (.list values)
    let paramJson :=
      match dflt with
      | some d => sset paramJson "default" (coerceDefault d)
      | Option.none => paramJson
    let paramJson :=
      if !comments.isEmpty then sset paramJson "value_comment" (.dict comments) else paramJson
    .ok (some paramJson)

/-- addParamExtraAttrs (source lines 247-253): a declared default makes
the parameter optional and records the raw default string; an optional
marker alone makes it optional. -/
def addParamExtraAttrs (param : Element) (paramJson : Obj) : Obj :=
  match aGet param "default" with
  | some d => sset (sset paramJson "required" (.bool false)) "default" (.str d)
  | Option.none =>
    if truthyOpt (aGet param "optional") then sset paramJson "required" (.bool false)
    else paramJson

/-- The inline flattening pattern of the source: if "schema" is a key, pop
it and merge its entries into the object.  The stored schema value is a
dict by construction, so the other branches are inert. -/
def flattenSchema (o : Obj) : Obj :=
  match sget o "schema" with
  | some (.dict d) => dUpdate (dRemove o (.str "schema")) d
  | some _ => o
  | Option.none => o

/-- The properties loop of setDictParamsSchema (source lines 224-236):
pop name and description of each sub-parameter, flatten its schema, and
store the result under the name.  A missing name key would be a KeyError,
as in the source; getParams guarantees it is present. -/
def buildProperties : List Obj → Obj → Except PyErr Obj
  | [], acc => .ok acc
  | sub :: rest, acc =>
    match dPop sub (.str "name") with
    | .error e => .error e
    | .ok (nameVal, sub1) =>
      let titleAndRest : PyVal × Obj :=
        match sget sub1 "description" with
        | some d => (d, dRemove sub1 (.str "description"))
        | Option.none => (.str "", sub1)
      let prop : Obj := [(.str "title", titleAndRest.1)]
      let sub2 := titleAndRest.2
      let propAndRest : Obj × Obj :=
        match sget sub2 "schema" with
        | some (.dict d) => (dUpdate prop d, dRemove sub2 (.str "schema"))
        | some _ => (prop, sub2)
        | Option.none => (prop, sub2)
      let prop2 := dUpdate propAndRest.1 propAndRest.2
      buildProperties rest (dSet acc nameVal (.dict prop2))

mutual

/-- getListItemSchema (source lines 135-169): the schema of one item of a
list parameter.  ok none models the silent skip of an item without a type
or whose choice content is malformed. -/
def getListItemSchema : Nat → Element → Except PyErr (Option Obj)
  | 0, _ => .error .fuel
  | n+1, item =>
    match aGet item "type" with
    | Option.none => .ok Option.none
    | some t =>
      if t == "" then .ok Option.none
      else if t == "choice" then
        let itemJson : Obj := [(.str "title", .str (aGetD item "comment" ""))]
        match getChoiceJsonParam item with
        | .error e => .error e
        | .ok Option.none => .ok Option.none
        | .ok (some tmp) =>
          let itemJson := dUpdate itemJson tmp
          let itemJson := dRemove itemJson (.str "description")
          .ok (some itemJson)
      else if t == "dict" then
        match getParams n item with
        | .error e => .error e
        | .ok params =>
          let params := params.map flattenSchema
          let res : Obj := [(.str "title", .str (aGetD item "comment" "")),
                            (.str "type", .str "object")]
          let res :=
            if aGet item "dynamic_keys" == some "true" then sset res "dynamic_keys" (.bool true)
            else res
          let res := sset res "params" (.list (params.map PyVal.dict))
          .ok (some res)
      else
        .ok (some [(.str "title", .str (aGetD item "comment" "")), (.str "type", .str t)])
termination_by structural n => n

/-- getMultiTypeListItemSchema (source lines 172-181): per-index schemas
of a heterogeneous list; items whose schema fails to resolve are dropped,
the positional index still advances. -/
def getMultiTypeListItemSchema : Nat → List Element → Nat → Except PyErr (List Obj)
  | 0, _, _ => .error .fuel
  | _+1, [], _ => .ok []
  | n+1, item :: rest, index =>
    match getListItemSchema n item with
    | .error e => .error e
    | .ok Option.none => getMultiTypeListItemSchema n rest (index + 1)
    | .ok (some schema2) =>
      let schema := dUpdate [(.str "index", .int (index : Int))] schema2
      match getMultiTypeListItemSchema n rest (index + 1) with
      | .error e => .error e
      | .ok restRes => .ok (schema :: restRes)
termination_by structural n => n

/-- getListSchema (source lines 184-201): array schema with an items key
when item children resolve to something truthy, and a length key copied
from a truthy length attribute other than the sentinel "-1". -/
def getListSchema : Nat → Element → JsonTy → Except PyErr Obj
  | 0, _, _ => .error .fuel
  | n+1, elem, newType =>
    let schema : Obj := [(.str "type", newType.toPyVal)]
    let items := pyFindAll elem "item"
    let withItems : Except PyErr Obj :=
      match items with
      | [] => .ok schema
      | i :: restItems =>
        if !restItems.isEmpty then
          match getMultiTypeListItemSchema n items 0 with
          | .error e => .error e
          | .ok itemSchema =>
            .ok (if !itemSchema.isEmpty then
                   sset schema "items" (.list (itemSchema.map PyVal.dict))
                 else schema)
        else
          match getListItemSchema n i with
          | .error e => .error e
          | .ok Option.none => .ok schema
          | .ok (some itemSchema) =>
            .ok (if !itemSchema.isEmpty then sset schema "items" (.dict itemSchema) else schema)
    match withItems with
    | .error e => .error e
    | .ok schema2 =>
      match aGet elem "length" with
      | some l =>
        .ok (if l != "" && l != "-1" then sset schema2 "length" (.str l) else schema2)
      | Option.none => .ok schema2
termination_by structural n => n

/-- setDynamicKeys (source lines 204-220): mark dynamic_keys, then record
the key and value descriptors when both child elements are present; a key
without a value is a diagnostic-only early return.  The TypeError branch
models Python evaluating "schema" in None when the value element converts
to None. -/
def setDynamicKeys : Nat → Element → Obj → Except PyErr Obj
  | 0, _, _ => .error .fuel
  | n+1, param, schema =>
    let schema := sset schema "dynamic_keys" (.bool true)
    match pyFind param "key" with
    | Option.none => .ok schema
    | some key =>
      match pyFind param "value" with
      | Option.none => .ok schema
      | some value =>
        let schema := sset schema "__key__"
          (.dict [(.str "type", .str (aGetD key "type" "")),
                  (.str "title", .str (aGetD key "comment" ""))])
        match getJsonParam n value with
        | .error e => .error e
        | .ok Option.none => .error (.typeError "argument of type NoneType is not iterable")
        | .ok (some valueJson) =>
          .ok (sset schema "__value__" (.dict (flattenSchema valueJson)))
termination_by structural n => n

/-- setDictParamsSchema (source lines 223-243): build the properties of a
dict parameter, handle dynamic keys, and attach properties last.  The
misspelled-dynamic_keys branch of the source only prints. -/
def setDictParamsSchema : Nat → Element → Obj → Except PyErr Obj
  | 0, _, _ => .error .fuel
  | n+1, param, schema =>
    match getParams n param with
    | .error e => .error e
    | .ok subParams =>
      match buildProperties subParams [] with
      | .error e => .error e
      | .ok properties =>
        let afterDyn : Except PyErr Obj :=
          if aGet param "dynamic_keys" == some "true" then setDynamicKeys n param schema
          else .ok schema
        match afterDyn with
        | .error e => .error e
        | .ok schema2 => .ok (sset schema2 "properties" (.dict properties))
termination_by structural n => n

/-- getJsonParam (source lines 257-312): convert one param element.  A
choice type delegates entirely; a truthy value attribute short-circuits to
a one-element enum; otherwise the type is resolved through
paramTypeMapping (KeyError when absent, exactly as the unguarded source
lookup) and the schema is built by type shape. -/
def getJsonParam : Nat → Element → Except PyErr (Option Obj)
  | 0, _ => .error .fuel
  | n+1, param =>
    let paramName := aGet param "name"
    let paramType := aGet param "type"
    if paramType == some "choice" then getChoiceJsonParam param
    else
      let description := aGetD param "comment" ""
      let paramValue := aGet param "value"
      let newTypeRes : Except PyErr ParamType :=
        match paramType with
        | some t =>
          if t != "" then
            match lookupParamType t with
            | some pt => .ok pt
            | Option.none => .error (.keyError t)
          else .ok defaultParamType
        | Option.none => .ok defaultParamType
      match newTypeRes with
      | .error e => .error e
      | .ok newType =>
        if truthyOpt paramValue then
          let paramJson : Obj :=
            [(.str "name", optStr paramName),
             (.str "description", .str description),
             (.str "enum", .list [.str (paramValue.getD "")])]
          .ok (some (addParamExtraAttrs param paramJson))
        else
          let description :=
            if newType.comment != "" then newType.comment ++ ", " ++ description
            else description
          let schemaRes : Except PyErr Obj :=
            if newType.type.containsArray then getListSchema n param newType.type
            else .ok [(.str "type", newType.type.toPyVal)]
          match schemaRes with
          | .error e => .error e
          | .ok schema =>
            let schemaRes2 : Except PyErr Obj :=
              if newType.pattern != "" then .ok (sset schema "pattern" (.str newType.pattern))
              else if paramType == some "dict" then setDictParamsSchema n param schema
              else .ok schema
            match schemaRes2 with
            | .error e => .error e
            | .ok schema2 =>
              let paramJson : Obj := []
              let paramJson :=
                if truthyOpt paramName then sset paramJson "name" (.str (paramName.getD ""))
                else paramJson
              let paramJson := dUpdate paramJson
                [(.str "description", .str description), (.str "schema", .dict schema2)]
              .ok (some (addParamExtraAttrs param paramJson))
termination_by structural n => n

/-- getParams (source lines 315-327): convert the param children of an
element, skipping non-param tags, unnamed params, and params that convert
to None. -/
def getParams : Nat → Element → Except PyErr (List Obj)
  | 0, _ => .error .fuel
  | n+1, elem => getParamsGo n elem.children
termination_by structural n => n

/-- The loop of getParams over the child list. -/
def getParamsGo : Nat → List Element → Except PyErr (List Obj)
  | 0, _ => .error .fuel
  | _+1, [] => .ok []
  | n+1, param :: rest =>
    if param.tag != "param" then getParamsGo n rest
    else if !truthyOpt (aGet param "name") then getParamsGo n rest
    else
      match getJsonParam n param with
      | .error e => .error e
      | .ok Option.none => getParamsGo n rest
      | .ok (some jsonParam) =>
        match getParamsGo n rest with
        | .error e => .error e
        | .ok restPs => .ok (jsonParam :: restPs)
termination_by structural n => n

end

/-- The output choice collection loop of getJsonMethod (source lines
369-378): collect the truthy value attributes of choice children, in
document order, skipping non-choice children and falsy values with a
diagnostic only. -/
def outputChoiceValues : List Element → List PyVal
  | [] => []
  | c :: rest =>
    if c.tag != "choice" then outputChoiceValues rest
    else
      match aGet c "value" with
      | Option.none => outputChoiceValues rest
      | some v =>
        if v == "" then outputChoiceValues rest
        else .str v :: outputChoiceValues rest

/-- The result sub-parameter loop of getJsonMethod (source lines
381-400): convert each named param child of the output element, strip its
name (del raises KeyError when absent, as in the source), rename
description to title, flatten the schema, and store it under the name. -/
def resultParamsGo (n : Nat) : List Element → Obj → Except PyErr Obj
  | [], acc => .ok acc
  | param :: rest, acc =>
    if param.tag != "param" then resultParamsGo n rest acc
    else
      match aGet param "name" with
      | Option.none => resultParamsGo n rest acc
      | some pn =>
        if pn == "" then resultParamsGo n rest acc
        else
          match getJsonParam n param with
          | .error e => .error e
          | .ok Option.none => resultParamsGo n rest acc
          | .ok (some tmp) =>
            match dDel tmp (.str "name") with
            | .error e => .error e
            | .ok tmp1 =>
              let titleAndRest : PyVal × Obj :=
                match sget tmp1 "description" with
                | some d => (d, dRemove tmp1 (.str "description"))
                | Option.none => (.str "", tmp1)
              let jsonParam : Obj := [(.str "title", titleAndRest.1)]
              let tmp2 := titleAndRest.2
              let merged : Obj × Obj :=
                match sget tmp2 "schema" with
                | some (.dict d) => (dUpdate jsonParam d, dRemove tmp2 (.str "schema"))
                | some _ => (jsonParam, tmp2)
                | Option.none => (jsonParam, tmp2)
              let jsonParam2 := dUpdate merged.1 merged.2
              resultParamsGo n rest (dSet acc (.str pn) (.dict jsonParam2))

/-- The output resolution tail of getJsonMethod (source lines 358-420):
build the result descriptor of a method from its output element.  ok none
models the method-skipping return when the output has neither a truthy
type nor a truthy value; an unknown truthy non-choice type is an
unguarded table lookup, hence KeyError. -/
def buildResult (n : Nat) (outputElem : Element) : Except PyErr (Option Obj) :=
  let outputComment := aGetD outputElem "comment" ""
  let outputType := aGet outputElem "type"
  let outputValue := aGet outputElem "value"
  let resultValues0 : Option (List PyVal) :=
    if truthyOpt outputValue then some [.str (outputValue.getD "")] else Option.none
  if !truthyOpt outputValue && !truthyOpt outputType then .ok Option.none
  else
    let resultValues : Option (List PyVal) :=
      if outputType == some "choice" then some (outputChoiceValues outputElem.children)
      else resultValues0
    let resultTypeRes : Except PyErr ParamType :=
      if outputType == some "choice" then .ok defaultParamType
      else
        match outputType with
        | some t =>
          if t != "" then
            match lookupParamType t with
            | some pt => .ok pt
            | Option.none => .error (.keyError t)
          else .ok defaultParamType
        | Option.none => .ok defaultParamType
    match resultTypeRes with
    | .error e => .error e
    | .ok resultType =>
      match resultParamsGo n outputElem.children [] with
      | .error e => .error e
      | .ok resultParams =>
        let resultName :=
          if resultValues.isSome then "Response (one of following values)"
          else if resultType.type.truthy then "Response (" ++ resultType.type.render ++ ")"
          else ""
        let result : Obj := [(.str "name", .str resultName), (.str "comment", .str outputComment)]
        let result :=
          if resultType.type.truthy then
            let resultSchema : Obj := [(.str "title", .str ""), (.str "type", resultType.type.toPyVal)]
            let resultSchema :=
              if !resultParams.isEmpty then sset resultSchema "properties" (.dict resultParams)
              else resultSchema
            sset result "schema" (.dict resultSchema)
          else result
        let result :=
          match resultValues with
          | some vs => sset result "enum" (.list vs)
          | Option.none => result
        .ok (some result)

/-- getJsonMethod (source lines 330-422): convert one method element; a
wrong tag, missing name, or missing input or output child skips the
method; the params of the input element are converted first, then the
envelope is assembled and the result descriptor attached. -/
def getJsonMethod (n : Nat) (handlerName : String) (method : Element)
    (authTypes : List String) : Except PyErr (Option Obj) :=
  if method.tag != "method" then .ok Option.none
  else if !truthyOpt (aGet method "name") then .ok Option.none
  else
    let methodName := (aGet method "name").getD ""
    match pyFind method "input" with
    | Option.none => .ok Option.none
    | some inputElem =>
      match pyFind method "output" with
      | Option.none => .ok Option.none
      | some outputElem =>
        match getParams n inputElem with
        | .error e => .error e
        | .ok params =>
          let jsonMethod : Obj :=
            [(.str "name", .str (handlerName ++ "." ++ methodName)),
             (.str "description", .str (aGetD method "comment" "")),
             (.str "auth_type", .list (authTypes.map PyVal.str))]
          let jsonMethod :=
            if truthyOpt (aGet method "requires_perm") then
              sset jsonMethod "requires_perm" (.str (aGetD method "requires_perm" ""))
            else jsonMethod
          let jsonMethod := sset jsonMethod "params" (.list (params.map PyVal.dict))
          match buildResult n outputElem with
          | .error e => .error e
          | .ok Option.none => .ok Option.none
          | .ok (some result) => .ok (some (sset jsonMethod "result" (.dict result)))

/-- The auth_type expansion of convertSubsystem (source lines 442-448): a
truthy attribute is split on commas and stripped (bad tokens are only
logged); an empty attribute means the default three access levels. -/
def pyAuthTypes (authTypesStr : String) : List String :=
  if authTypesStr != "" then (pySplitComma authTypesStr).map (fun x => pyStrip x)
  else ["ADMIN", "NORMAL_USER", "VOIP_USER"]

/-- The method loop of convertSubsystem (source lines 434-453): ok none
models the early return that aborts the whole handler when a method has
no auth_type attribute at all; a method converting to None is skipped. -/
def methodLoop (n : Nat) (handlerName : String) :
    List Element → List Obj → Except PyErr (Option (List Obj))
  | [], methods => .ok (some methods)
  | method :: rest, methods =>
    if method.tag != "method" then methodLoop n handlerName rest methods
    else
      match aGet method "auth_type" with
      | Option.none => .ok Option.none
      | some authTypesStr =>
        let authTypes := pyAuthTypes authTypesStr
        match getJsonMethod n handlerName method authTypes with
        | .error e => .error e
        | .ok Option.none => methodLoop n handlerName rest methods
        | .ok (some jsonMethod) => methodLoop n handlerName rest (methods ++ [jsonMethod])

/-- File system effects of the conversion, in execution order.  The Bool
of makeDirs is the exist_ok flag (the source passes exist_ok=True, so an
existing directory is tolerated).  Serialization of the written document
(dataToPrettyJson) is not modelled; the written value is kept as PyVal. -/
inductive FSEffect where
  | makeDirs : String → Bool → FSEffect
  | writeFile : String → PyVal → FSEffect
deriving Repr

/-- os.path.join for the relative path components used here. -/
def pathJoin (a b : String) : String := a ++ "/" ++ b

/-- The document written for one handler (source lines 456-463). -/
def docJson (branch handlerName : String) (methods : List Obj) : PyVal :=
  .dict [(.str "openrpc", .str "1.2.1"),
         (.str "info", .dict [(.str "version", .str "1.0.0"),
                              (.str "title", .str ("IBSng: branch " ++ branch ++ ": " ++ handlerName))]),
         (.str "methods", .list (methods.map PyVal.dict))]

/-- convertSubsystem (source lines 425-463): a handler without a truthy
name is skipped before any file system effect; otherwise the branch
directory is created, the methods are converted, and the handler file is
written unless the method loop aborted (missing auth_type) or raised. -/
def convertSubsystem (n : Nat) (handler : Element) (branch outDir : String) :
    List FSEffect × Except PyErr Unit :=
  if !truthyOpt (aGet handler "name") then ([], .ok ())
  else
    let handlerName := (aGet handler "name").getD ""
    let branchDir := pathJoin outDir branch
    match methodLoop n handlerName handler.children [] with
    | .error e => ([.makeDirs branchDir true], .error e)
    | .ok Option.none => ([.makeDirs branchDir true], .ok ())
    | .ok (some methods) =>
      ([.makeDirs branchDir true,
        .writeFile (pathJoin branchDir (handlerName ++ ".json")) (docJson branch handlerName methods)],
       .ok ())

/-- The handler loop of convert (source lines 470-473): non-handler
children are skipped; an uncaught exception in one handler stops the
whole run, with the effects performed so far. -/
def handlerLoop (n : Nat) : List Element → String → String → List FSEffect × Except PyErr Unit
  | [], _, _ => ([], .ok ())
  | h :: rest, branch, outDir =>
    if h.tag != "handler" then handlerLoop n rest branch outDir
    else
      match convertSubsystem n h branch outDir with
      | (effs, .error e) => (effs, .error e)
      | (effs, .ok _) =>
        let r := handlerLoop n rest branch outDir
        (effs ++ r.1, r.2)

/-- convert (source lines 466-473) on an already parsed document root
(XML reading and parsing are not modelled). -/
def convert (n : Nat) (doc : Element) (branch outDir : String) :
    List FSEffect × Except PyErr Unit :=
  handlerLoop n doc.children branch outDir

/-! Supporting lemmas about the Python dict operations. -/

/-- Key comparison of string keys is string equality. -/
theorem pyKeyBeq_str (a b : String) : pyKeyBeq (.str a) (.str b) = (a == b) := rfl

/-- Getting the key just set. -/
theorem sget_sset_same (o : Obj) (k : String) (v : PyVal) : sget (sset o k v) k = some v := by
  induction o with
  | nil => simp [sget, sset, dGet, dSet, pyKeyBeq]
  | cons p rest ih =>
    obtain ⟨pk, pv⟩ := p
    by_cases h : pyKeyBeq pk (.str k) = true
    · simp [sget, sset, dGet, dSet, h]
    · simp only [Bool.not_eq_true] at h
      simp only [sget, sset, dSet, dGet, h] at ih ⊢
      simpa [h] using ih

/-- Getting another key is unaffected by a set. -/
theorem sget_sset_ne (o : Obj) (k k2 : String) (v : PyVal) (h : k2 ≠ k) :
    sget (sset o k v) k2 = sget o k2 := by
  induction o with
  | nil =>
    simp [sget, sset, dGet, dSet, pyKeyBeq]
    intro hc
    exact absurd hc.symm h
  | cons p rest ih =>
    obtain ⟨pk, pv⟩ := p
    by_cases hk : pyKeyBeq pk (.str k) = true
    · have hk2 : pyKeyBeq pk (.str k2) = false := by
        cases pk <;> simp [pyKeyBeq] at hk ⊢
        subst hk
        exact fun hc => h hc.symm
      simp [sget, sset, dGet, dSet, hk, hk2]
    · simp only [Bool.not_eq_true] at hk
      by_cases hk2 : pyKeyBeq pk (.str k2) = true
      · simp [sget, sset, dGet, dSet, hk, hk2]
      · simp only [Bool.not_eq_true] at hk2
        simp only [sget, sset, dGet, dSet, hk, hk2] at ih ⊢
        simp [hk, hk2, ih]

/-- Membership of the key just set. -/
theorem shas_sset_same (o : Obj) (k : String) (v : PyVal) : shas (sset o k v) k = true := by
  simp [shas, dHas, ← sget.eq_def, ← sset.eq_def, sget_sset_same]

/-- Membership of another key is unaffected by a set. -/
theorem shas_sset_ne (o : Obj) (k k2 : String) (v : PyVal) (h : k2 ≠ k) :
    shas (sset o k v) k2 = shas o k2 := by
  simp [shas, dHas, ← sget.eq_def, ← sset.eq_def, sget_sset_ne _ _ _ _ h]

/-- addParamExtraAttrs only touches the required and default keys. -/
theorem sget_addParamExtraAttrs (p : Element) (o : Obj) (k : String)
    (h1 : k ≠ "required") (h2 : k ≠ "default") :
    sget (addParamExtraAttrs p o) k = sget o k := by
  unfold addParamExtraAttrs
  cases aGet p "default" with
  | some d => rw [sget_sset_ne _ _ _ _ h2, sget_sset_ne _ _ _ _ h1]
  | none =>
    by_cases ho : truthyOpt (aGet p "optional") = true
    · simp [ho, sget_sset_ne _ _ _ _ h1]
    · simp only [Bool.not_eq_true] at ho
      simp [ho]

/-- The schema key of the assembled parameter envelope. -/
theorem sget_schema_assemble (param : Element) (base : Obj) (d s : PyVal) :
    sget (addParamExtraAttrs param
      (dUpdate base [(.str "description", d), (.str "schema", s)])) "schema" = some s := by
  rw [sget_addParamExtraAttrs _ _ _ (by decide) (by decide)]
  show sget (sset (sset base "description" d) "schema" s) "schema" = some s
  exact sget_sset_same _ _ _

/-- C1: for every param element whose non-empty type attribute maps in
paramTypeMapping to a single scalar JSON type and which carries no value
attribute, getJsonParam emits a schema whose type is the mapped JSON type
and which has a pattern key exactly when the table entry declares a
non-empty pattern. -/
theorem c1_scalar_type_and_pattern (n : Nat) (param : Element) (T t : String) (e : ParamType)
    (hT : aGet param "type" = some T) (hTne : T ≠ "")
    (hlook : lookupParamType T = some e)
    (hty : e.type = JsonTy.single t)
    (hscalar : t ∈ ["string", "number", "boolean", "null"])
    (hval : aGet param "value" = Option.none) :
    ∃ pj s, getJsonParam (n + 1) param = .ok (some pj) ∧
      sget pj "schema" = some (.dict s) ∧
      sget s "type" = some (.str t) ∧
      shas s "pattern" = (e.pattern != "") := by
  simp only [List.mem_cons, List.not_mem_nil, or_false] at hscalar
  have hTchoice : T ≠ "choice" := by
    intro hc
    subst hc
    have hn : lookupParamType "choice" = Option.none := rfl
    rw [hn] at hlook
    exact Option.noConfusion hlook
  have hTdict : T ≠ "dict" := by
    intro hc
    subst hc
    have he : e = ⟨JsonTy.single "object", "", ""⟩ := by
      have : lookupParamType "dict" = some ⟨JsonTy.single "object", "", ""⟩ := rfl
      rw [this] at hlook
      exact (Option.some.inj hlook).symm
    rw [he] at hty
    have ht : t = "object" := (JsonTy.single.inj hty.symm)
    subst ht
    rcases hscalar with h | h | h | h <;> exact absurd h (by decide)
  have hnoarr : strContains t "array" = false := by
    rcases hscalar with rfl | rfl | rfl | rfl <;> rfl
  have hchoiceb : (some T == some "choice") = false := by simp [hTchoice]
  have hdictb : (some T == some "dict") = false := by simp [hTdict]
  have hvfalse : truthyOpt (aGet param "value") = false := by rw [hval]; rfl
  have hTneb : (T != "") = true := by simp [hTne]
  have harr : (JsonTy.single t).containsArray = false := by
    simpa [JsonTy.containsArray] using hnoarr
  by_cases hpat : e.pattern = ""
  · have hpatb : (e.pattern != "") = false := by simp [hpat]
    simp only [getJsonParam, hT, hchoiceb, hTneb, hlook, hvfalse, harr, hdictb, hpatb, hty,
      JsonTy.toPyVal, Bool.false_eq_true, if_false, if_true]
    refine ⟨_, [(.str "type", .str t)], rfl, ?_, ?_, ?_⟩
    · exact sget_schema_assemble ..
    · rfl
    · rfl
  · have hpatb : (e.pattern != "") = true := by simp [hpat]
    simp only [getJsonParam, hT, hchoiceb, hTneb, hlook, hvfalse, harr, hdictb, hpatb, hty,
      JsonTy.toPyVal, Bool.false_eq_true, if_false, if_true]
    refine ⟨_, sset [(.str "type", .str t)] "pattern" (.str e.pattern), rfl, ?_, ?_, ?_⟩
    · exact sget_schema_assemble ..
    · rw [sget_sset_ne _ _ _ _ (by decide)]
      rfl
    · rw [shas_sset_same]

/-- A concrete int-typed parameter element for the C1 witness. -/
def c1param : Element := .mk "param" [("name", "x"), ("type", "int")] []

/-- Witness for C1: the theorem applied at a concrete int parameter. -/
theorem c1_scalar_type_and_pattern_witness :
    aGet c1param "type" = some "int" ∧ "int" ≠ "" ∧
    lookupParamType "int" = some ⟨JsonTy.single "number", "", ""⟩ ∧
    "number" ∈ ["string", "number", "boolean", "null"] ∧
    aGet c1param "value" = Option.none ∧
    (∃ pj s, getJsonParam 1 c1param = .ok (some pj) ∧
      sget pj "schema" = some (.dict s) ∧
      sget s "type" = some (.str "number") ∧
      shas s "pattern" = ((⟨JsonTy.single "number", "", ""⟩ : ParamType).pattern != "")) :=
  ⟨rfl, by decide, rfl, by decide, rfl,
   c1_scalar_type_and_pattern 0 c1param "int" "number" ⟨JsonTy.single "number", "", ""⟩ rfl
     (by decide) rfl rfl (by decide) rfl⟩

/-- C2: a non-empty type attribute that is neither choice nor a key of
paramTypeMapping makes the unguarded table lookup raise KeyError, both
for a param element and for an output element, and an exception raised
while converting one handler terminates the whole run (the remaining
handlers are not processed). -/
theorem c2_unknown_type_keyerror :
    (∀ (n : Nat) (param : Element) (T : String),
      aGet param "type" = some T → T ≠ "" → T ≠ "choice" →
      lookupParamType T = Option.none →
      getJsonParam (n + 1) param = .error (.keyError T)) ∧
    (∀ (n : Nat) (out : Element) (T : String),
      aGet out "type" = some T → T ≠ "" → T ≠ "choice" →
      lookupParamType T = Option.none →
      buildResult n out = .error (.keyError T)) ∧
    (∀ (n : Nat) (h : Element) (rest : List Element) (branch outDir : String)
      (effs : List FSEffect) (e : PyErr),
      h.tag = "handler" →
      convertSubsystem n h branch outDir = (effs, .error e) →
      handlerLoop n (h :: rest) branch outDir = (effs, .error e)) := by
  refine ⟨?_, ?_, ?_⟩
  · intro n param T hT hTne hTch hlook
    have hchoiceb : (some T == some "choice") = false := by simp [hTch]
    have hTneb : (T != "") = true := by simp [hTne]
    simp only [getJsonParam, hT, hchoiceb, hTneb, hlook, Bool.false_eq_true, if_false, if_true]
  · intro n out T hT hTne hTch hlook
    have hchoiceb : (some T == some "choice") = false := by simp [hTch]
    have hTneb : (T != "") = true := by simp [hTne]
    have htt : truthyOpt (aGet out "type") = true := by rw [hT]; simpa [truthyOpt] using hTneb
    simp only [buildResult, hT, hchoiceb, hTneb, htt, hlook, Bool.false_eq_true, if_false,
      if_true, Bool.and_false, Bool.not_true]
    cases hv : truthyOpt (aGet out "value") <;> simp [truthyOpt, hTne]
  · intro n h rest branch outDir effs e htag hconv
    simp only [handlerLoop, htag, bne_self_eq_false, Bool.false_eq_true, if_false, hconv]

/-- A concrete param element with an unknown type for the C2 witness. -/
def c2param : Element := .mk "param" [("type", "bogus")] []

/-- A concrete output element with an unknown type for the C2 witness. -/
def c2out : Element := .mk "output" [("type", "bogus"), ("value", "v")] []

/-- A concrete handler whose single method has a bogus-typed input
parameter, for the C2 witness. -/
def c2handler : Element :=
  .mk "handler" [("name", "h")]
    [.mk "method" [("name", "m"), ("auth_type", "ADMIN")]
      [.mk "input" [] [.mk "param" [("name", "p"), ("type", "bogus")] []],
       .mk "output" [("type", "bool")] []]]

/-- Witness for C2: KeyError at a concrete unknown type, at both lookup
sites, and run termination at a concrete handler list. -/
theorem c2_unknown_type_keyerror_witness :
    aGet c2param "type" = some "bogus" ∧ lookupParamType "bogus" = Option.none ∧
    getJsonParam 1 c2param = .error (.keyError "bogus") ∧
    buildResult 1 c2out = .error (.keyError "bogus") ∧
    handlerLoop 5 [c2handler] "b" "o" = ([.makeDirs "o/b" true], .error (.keyError "bogus")) :=
  ⟨rfl, rfl,
   c2_unknown_type_keyerror.1 0 c2param "bogus" rfl (by decide) (by decide) rfl,
   c2_unknown_type_keyerror.2.1 1 c2out "bogus" rfl (by decide) (by decide) rfl,
   c2_unknown_type_keyerror.2.2 5 c2handler [] "b" "o" [.makeDirs "o/b" true]
     (.keyError "bogus") rfl rfl⟩

/-- The method loop splits over a concatenation: the second part runs
with the accumulator of the first, and an abort or exception of the first
part ends the loop. -/
theorem methodLoop_append (n : Nat) (hn : String) (xs ys : List Element) (acc : List Obj) :
    methodLoop n hn (xs ++ ys) acc =
      match methodLoop n hn xs acc with
      | .ok (some acc2) => methodLoop n hn ys acc2
      | r => r := by
  induction xs generalizing acc with
  | nil => simp [methodLoop]
  | cons m rest ih =>
    simp only [List.cons_append, methodLoop]
    by_cases ht : (m.tag != "method") = true
    · simp only [ht, if_true]
      exact ih acc
    · simp only [Bool.not_eq_true] at ht
      simp only [ht, Bool.false_eq_true, if_false]
      cases aGet m "auth_type" with
      | none => rfl
      | some s =>
        dsimp only [List.append_eq]
        cases getJsonMethod n hn m (pyAuthTypes s) with
        | error e => rfl
        | ok jm? =>
          cases jm? with
          | none => exact ih acc
          | some jm => exact ih (acc ++ [jm])

/-- C3: a handler containing a method child with a wholly absent
auth_type attribute is aborted: provided the methods before it process
without an exception, no file is written for the handler (only the branch
directory is created), while the handlers after it in the document are
converted exactly as they would be on their own. -/
theorem c3_missing_auth_type_aborts_handler (n : Nat) (hdlr : Element)
    (branch outDir nm : String) (pre post : List Element) (m : Element) (acc : List Obj)
    (hname : aGet hdlr "name" = some nm) (hnm : nm ≠ "")
    (hch : hdlr.children = pre ++ m :: post)
    (hmtag : m.tag = "method") (hauth : aGet m "auth_type" = Option.none)
    (hpre : methodLoop n nm pre [] = .ok (some acc)) :
    convertSubsystem n hdlr branch outDir =
      ([.makeDirs (pathJoin outDir branch) true], .ok ()) ∧
    ∀ rest : List Element, hdlr.tag = "handler" →
      handlerLoop n (hdlr :: rest) branch outDir =
        ([.makeDirs (pathJoin outDir branch) true] ++ (handlerLoop n rest branch outDir).1,
         (handlerLoop n rest branch outDir).2) := by
  have htr : truthyOpt (aGet hdlr "name") = true := by rw [hname]; simpa [truthyOpt] using hnm
  have hgd : (aGet hdlr "name").getD "" = nm := by rw [hname]; rfl
  have habort : methodLoop n nm hdlr.children [] = .ok Option.none := by
    rw [hch, methodLoop_append, hpre]
    simp only [methodLoop, hmtag, bne_self_eq_false, Bool.false_eq_true, if_false, hauth]
  have hconv : convertSubsystem n hdlr branch outDir =
      ([.makeDirs (pathJoin outDir branch) true], .ok ()) := by
    simp only [convertSubsystem, htr, Bool.not_true, Bool.false_eq_true, if_false, hgd, habort]
  refine ⟨hconv, ?_⟩
  intro rest htag
  simp only [handlerLoop, htag, bne_self_eq_false, Bool.false_eq_true, if_false, hconv]

/-- A concrete handler whose first method has no auth_type, for the C3
witness. -/
def c3handler : Element :=
  .mk "handler" [("name", "h")]
    [.mk "method" [("name", "m")]
      [.mk "input" [] [], .mk "output" [("type", "bool")] []]]

/-- Witness for C3: the theorem applied at a concrete aborted handler. -/
theorem c3_missing_auth_type_aborts_handler_witness :
    aGet c3handler "name" = some "h" ∧
    c3handler.children =
      [] ++ (Element.mk "method" [("name", "m")]
        [.mk "input" [] [], .mk "output" [("type", "bool")] []]) :: [] ∧
    convertSubsystem 3 c3handler "b" "o" = ([.makeDirs "o/b" true], .ok ()) ∧
    handlerLoop 3 [c3handler] "b" "o" =
      ([.makeDirs "o/b" true] ++ (handlerLoop 3 ([] : List Element) "b" "o").1,
       (handlerLoop 3 ([] : List Element) "b" "o").2) := by
  have h := c3_missing_auth_type_aborts_handler 3 c3handler "b" "o" "h" [] []
    (.mk "method" [("name", "m")] [.mk "input" [] [], .mk "output" [("type", "bool")] []])
    [] rfl (by decide) rfl rfl rfl rfl
  exact ⟨rfl, rfl, h.1, h.2 [] rfl⟩

/-- C10: convertSubsystem performs no file system effect at all for a
handler whose name attribute is missing or empty, and for a handler with
a truthy name its first effect is always the idempotent creation
(exist_ok true) of the branch directory, whatever happens afterwards. -/
theorem c10_branch_dir_effects :
    (∀ (n : Nat) (h : Element) (branch outDir : String),
      truthyOpt (aGet h "name") = false →
      convertSubsystem n h branch outDir = ([], .ok ())) ∧
    (∀ (n : Nat) (h : Element) (branch outDir : String),
      truthyOpt (aGet h "name") = true →
      (convertSubsystem n h branch outDir).1.head? =
        some (.makeDirs (pathJoin outDir branch) true)) := by
  constructor
  · intro n h branch outDir hf
    simp [convertSubsystem, hf]
  · intro n h branch outDir ht
    simp only [convertSubsystem, ht, Bool.not_true, Bool.false_eq_true, if_false]
    cases methodLoop n ((aGet h "name").getD "") h.children [] with
    | error e => rfl
    | ok r =>
      cases r with
      | none => rfl
      | some ms => rfl

/-- A concrete nameless handler for the C10 witness. -/
def c10nameless : Element := .mk "handler" [] [.mk "method" [] []]

/-- Witness for C10: no effects for a concrete nameless handler, and the
branch directory as first effect for the concrete named handlers already
used above (including the aborted one). -/
theorem c10_branch_dir_effects_witness :
    truthyOpt (aGet c10nameless "name") = false ∧
    convertSubsystem 3 c10nameless "b" "o" = ([], .ok ()) ∧
    truthyOpt (aGet c3handler "name") = true ∧
    (convertSubsystem 3 c3handler "b" "o").1.head? = some (.makeDirs "o/b" true) :=
  ⟨rfl, c10_branch_dir_effects.1 3 c10nameless "b" "o" rfl, rfl,
   c10_branch_dir_effects.2 3 c3handler "b" "o" rfl⟩

/-- A concrete method whose output has neither a type nor a value
attribute. -/
def c4badMethod : Element :=
  .mk "method" [("name", "m1"), ("auth_type", "ADMIN")]
    [.mk "input" [] [], .mk "output" [] []]

/-- A concrete well-formed sibling method following the bad one. -/
def c4goodMethod : Element :=
  .mk "method" [("name", "m2"), ("auth_type", "ADMIN")]
    [.mk "input" [] [], .mk "output" [("type", "bool")] []]

/-- A concrete handler with the bad method before the good one. -/
def c4handler : Element := .mk "handler" [("name", "h")] [c4badMethod, c4goodMethod]

/-- The descriptor the conversion emits for the good sibling. -/
def c4m2desc : Obj :=
  [(.str "name", .str "h.m2"),
   (.str "description", .str ""),
   (.str "auth_type", .list [.str "ADMIN"]),
   (.str "params", .list []),
   (.str "result", .dict
     [(.str "name", .str "Response (boolean)"),
      (.str "comment", .str ""),
      (.str "schema", .dict [(.str "title", .str ""), (.str "type", .str "boolean")])])]

/-- C4 counterexample: in a handler whose first method has an output with
neither type nor value, the following sibling method still contributes
its descriptor and the handler file is written — the remaining methods
are not aborted, contradicting the claim. -/
theorem c4_counterexample :
    pyFind c4badMethod "output" = some (.mk "output" [] []) ∧
    aGet (Element.mk "output" [] []) "type" = Option.none ∧
    aGet (Element.mk "output" [] []) "value" = Option.none ∧
    convertSubsystem 10 c4handler "b" "out" =
      ([.makeDirs "out/b" true,
        .writeFile "out/b/h.json" (docJson "b" "h" [c4m2desc])], .ok ()) ∧
    sget c4m2desc "name" = some (.str "h.m2") :=
  ⟨rfl, rfl, rfl, rfl, rfl⟩

/-- C4 (amended): a method whose output element has neither a truthy
type attribute nor a truthy value attribute is skipped with a diagnostic
only: provided its input parameters convert without an exception, the
method loop continues over the following siblings with an unchanged
accumulator (the handler is not aborted and its file is still written
with the surviving methods). -/
theorem c4_bad_output_skips_method_only (n : Nat) (hn s : String) (m inp outp : Element)
    (rest : List Element) (acc : List Obj) (ps : List Obj)
    (hmtag : m.tag = "method")
    (hauth : aGet m "auth_type" = some s)
    (hname : truthyOpt (aGet m "name") = true)
    (hin : pyFind m "input" = some inp)
    (hout : pyFind m "output" = some outp)
    (hov : truthyOpt (aGet outp "value") = false)
    (hot : truthyOpt (aGet outp "type") = false)
    (hparams : getParams n inp = .ok ps) :
    methodLoop n hn (m :: rest) acc = methodLoop n hn rest acc := by
  have hbr : buildResult n outp = .ok Option.none := by
    simp only [buildResult, hov, hot, Bool.not_false, Bool.and_self, if_true]
  have hjm : getJsonMethod n hn m (pyAuthTypes s) = .ok Option.none := by
    simp only [getJsonMethod, hmtag, bne_self_eq_false, Bool.false_eq_true, if_false,
      hname, Bool.not_true, hin, hout, hparams, hbr]
  simp only [methodLoop, hmtag, bne_self_eq_false, Bool.false_eq_true, if_false, hauth, hjm]

/-- Witness for the amended C4 at the concrete bad method. -/
theorem c4_bad_output_skips_method_only_witness :
    aGet c4badMethod "auth_type" = some "ADMIN" ∧
    truthyOpt (aGet (Element.mk "output" [] []) "value") = false ∧
    methodLoop 3 "h" [c4badMethod] [] = methodLoop 3 "h" [] [] :=
  ⟨rfl, rfl,
   c4_bad_output_skips_method_only 3 "h" "ADMIN" c4badMethod (.mk "input" [] [])
     (.mk "output" [] []) [] [] [] rfl rfl rfl rfl rfl rfl rfl rfl⟩

/-- A concrete list element with an empty length attribute. -/
def c8lenElem : Element := .mk "param" [("length", "")] []

/-- C8 counterexample: a list element with a present length attribute
that is empty (hence not the sentinel value) still gets no length key,
because the source guards the copy with Python truthiness, contradicting
the claim that a present length other than the sentinel is copied. -/
theorem c8_counterexample :
    aGet c8lenElem "length" = some "" ∧
    ("" ≠ "-1") ∧
    getListSchema 3 c8lenElem (JsonTy.single "array") = .ok [(.str "type", .str "array")] ∧
    shas [((PyVal.str "type"), (PyVal.str "array"))] "length" = false :=
  ⟨rfl, by decide, rfl, rfl⟩

/-- C8 (amended): a list param with exactly one plain-typed item child
and no length attribute emits exactly the claimed array schema with the
raw item type; and a length attribute is copied verbatim if and only if
it is non-empty and not the sentinel, otherwise omitted. -/
theorem c8_list_schema_and_length :
    (∀ (n : Nat) (param i : Element) (T : String),
      aGet param "type" = some "list" →
      aGet param "value" = Option.none →
      aGet param "length" = Option.none →
      pyFindAll param "item" = [i] →
      aGet i "type" = some T → T ≠ "" → T ≠ "choice" → T ≠ "dict" →
      ∃ pj, getJsonParam (n + 3) param = .ok (some pj) ∧
        sget pj "schema" = some (.dict
          [(.str "type", .str "array"),
           (.str "items", .dict [(.str "title", .str (aGetD i "comment" "")),
                                 (.str "type", .str T)])])) ∧
    (∀ (n : Nat) (e : Element) (t : JsonTy) (r : Obj) (len : String),
      getListSchema (n + 1) e t = .ok r →
      aGet e "length" = some len →
      ((len ≠ "" ∧ len ≠ "-1") → sget r "length" = some (.str len)) ∧
      ((len = "" ∨ len = "-1") → shas r "length" = false)) := by
  constructor
  · intro n param i T hT hval hlen hitems hiT hTne hTch hTd
    have hlook : lookupParamType "list" = some ⟨JsonTy.single "array", "", ""⟩ := rfl
    have hvfalse : truthyOpt (aGet param "value") = false := by rw [hval]; rfl
    have hitem : getListItemSchema (n + 1) i =
        .ok (some [(.str "title", .str (aGetD i "comment" "")), (.str "type", .str T)]) := by
      have h1 : (T == "") = false := by simp [hTne]
      have h2 : (T == "choice") = false := by simp [hTch]
      have h3 : (T == "dict") = false := by simp [hTd]
      simp only [getListItemSchema, hiT, h1, h2, h3, Bool.false_eq_true, if_false]
    have hls : getListSchema (n + 2) param (JsonTy.single "array") =
        .ok [(.str "type", .str "array"),
             (.str "items", .dict [(.str "title", .str (aGetD i "comment" "")),
                                   (.str "type", .str T)])] := by
      simp only [getListSchema, hitems, hlen, hitem, List.isEmpty_nil, Bool.not_true,
        Bool.false_eq_true, if_false, JsonTy.toPyVal]
      rfl
    simp only [getJsonParam, hT, hvfalse, hlook, hls, Bool.false_eq_true, if_false, if_true,
      show (some "list" == some "choice") = false from rfl,
      show (("list" : String) != "") = true from rfl,
      show (some "list" == some "dict") = false from rfl,
      show (JsonTy.single "array").containsArray = true from rfl,
      show ((ParamType.mk (JsonTy.single "array") "" "").pattern != "") = false from rfl]
    refine ⟨_, rfl, ?_⟩
    exact sget_schema_assemble ..
  · intro n e t r len hr hlen
    have hkeep : ∀ s2 : Obj, shas s2 "length" = false →
        (((len ≠ "" ∧ len ≠ "-1") →
          sget (if (len != "" && len != "-1") = true then sset s2 "length" (.str len) else s2)
            "length" = some (.str len)) ∧
         ((len = "" ∨ len = "-1") →
          shas (if (len != "" && len != "-1") = true then sset s2 "length" (.str len) else s2)
            "length" = false)) := by
      intro s2 habs
      constructor
      · intro hne
        have hc : (len != "" && len != "-1") = true := by simp [hne.1, hne.2]
        rw [if_pos hc]
        exact sget_sset_same ..
      · intro heq
        have hc : (len != "" && len != "-1") = false := by
          rcases heq with rfl | rfl <;> simp
        rw [hc]
        simpa using habs
    have hitems : ∀ d : Obj, shas (if (!d.isEmpty) = true
        then sset [(.str "type", t.toPyVal)] "items" (.dict d)
        else [(.str "type", t.toPyVal)]) "length" = false := by
      intro d
      by_cases hd : (!d.isEmpty) = true
      · rw [if_pos hd, shas_sset_ne _ _ _ _ (by decide)]
        rfl
      · rw [if_neg hd]
        rfl
    have hitemsL : ∀ ds : List Obj, shas (if (!ds.isEmpty) = true
        then sset [(.str "type", t.toPyVal)] "items" (.list (ds.map PyVal.dict))
        else [(.str "type", t.toPyVal)]) "length" = false := by
      intro ds
      by_cases hd : (!ds.isEmpty) = true
      · rw [if_pos hd, shas_sset_ne _ _ _ _ (by decide)]
        rfl
      · rw [if_neg hd]
        rfl
    revert hr
    simp only [getListSchema, hlen]
    rcases hi : pyFindAll e "item" with _ | ⟨i, ris⟩
    · intro hr
      have hr2 : (if (len != "" && len != "-1") = true
          then sset [(.str "type", t.toPyVal)] "length" (.str len)
          else [(.str "type", t.toPyVal)]) = r := Except.ok.inj hr
      rw [← hr2]
      exact hkeep _ rfl
    · by_cases hris : (!ris.isEmpty) = true
      · simp only [hris, if_true]
        cases hmulti : getMultiTypeListItemSchema n (i :: ris) 0 with
        | error err => intro hr; exact absurd hr (by simp)
        | ok ds =>
          intro hr
          have hr2 : (if (len != "" && len != "-1") = true
              then sset (if (!ds.isEmpty) = true
                  then sset [(.str "type", t.toPyVal)] "items" (.list (ds.map PyVal.dict))
                  else [(.str "type", t.toPyVal)]) "length" (.str len)
              else (if (!ds.isEmpty) = true
                  then sset [(.str "type", t.toPyVal)] "items" (.list (ds.map PyVal.dict))
                  else [(.str "type", t.toPyVal)])) = r := Except.ok.inj hr
          rw [← hr2]
          exact hkeep _ (hitemsL ds)
      · have hris2 : (!ris.isEmpty) = false := by simpa using hris
        simp only [hris2, Bool.false_eq_true, if_false]
        cases hsingle : getListItemSchema n i with
        | error err => intro hr; exact absurd hr (by simp)
        | ok d? =>
          cases d? with
          | none =>
            intro hr
            have hr2 : (if (len != "" && len != "-1") = true
                then sset [(.str "type", t.toPyVal)] "length" (.str len)
                else [(.str "type", t.toPyVal)]) = r := Except.ok.inj hr
            rw [← hr2]
            exact hkeep _ rfl
          | some d =>
            intro hr
            have hr2 : (if (len != "" && len != "-1") = true
                then sset (if (!d.isEmpty) = true
                    then sset [(.str "type", t.toPyVal)] "items" (.dict d)
                    else [(.str "type", t.toPyVal)]) "length" (.str len)
                else (if (!d.isEmpty) = true
                    then sset [(.str "type", t.toPyVal)] "items" (.dict d)
                    else [(.str "type", t.toPyVal)])) = r := Except.ok.inj hr
            rw [← hr2]
            exact hkeep _ (hitems d)

/-- A concrete int-typed item for the C8 witness. -/
def c8item : Element := .mk "item" [("type", "int")] []

/-- A concrete single-item list parameter for the C8 witness. -/
def c8listParam : Element := .mk "param" [("name", "l"), ("type", "list")] [c8item]

/-- A concrete list element with length 7 for the C8 witness. -/
def c8lenElem7 : Element := .mk "param" [("length", "7")] []

/-- Witness for the amended C8 at a concrete one-item list parameter and
a concrete non-empty length. -/
theorem c8_list_schema_and_length_witness :
    aGet c8listParam "type" = some "list" ∧
    (∃ pj, getJsonParam 3 c8listParam = .ok (some pj) ∧
      sget pj "schema" = some (.dict [(.str "type", .str "array"),
        (.str "items", .dict [(.str "title", .str ""), (.str "type", .str "int")])])) ∧
    getListSchema 1 c8lenElem7 (JsonTy.single "array") =
      .ok [(.str "type", .str "array"), (.str "length", .str "7")] ∧
    sget [((PyVal.str "type"), (PyVal.str "array")), ((PyVal.str "length"), (PyVal.str "7"))]
      "length" = some (.str "7") :=
  ⟨rfl,
   c8_list_schema_and_length.1 0 c8listParam c8item "int" rfl rfl rfl rfl rfl (by decide)
     (by decide) (by decide),
   rfl,
   (c8_list_schema_and_length.2 0 c8lenElem7 (JsonTy.single "array")
     [(.str "type", .str "array"), (.str "length", .str "7")] "7" rfl rfl).1
     ⟨by decide, by decide⟩⟩

/-- A choice parameter with a truthy name attribute keeps that name as
the first key of its emitted object. -/
theorem getChoiceJsonParam_name (param : Element) (nm : String) (obj : Obj)
    (hname : aGet param "name" = some nm) (hnm : nm ≠ "")
    (h : getChoiceJsonParam param = .ok (some obj)) :
    sget obj "name" = some (.str nm) := by
  have htr : truthyOpt (aGet param "name") = true := by rw [hname]; simpa [truthyOpt] using hnm
  have hgd : (aGet param "name").getD "" = nm := by rw [hname]; rfl
  revert h
  unfold getChoiceJsonParam
  cases choiceLoop param.children [] [] Option.none with
  | error e => intro h; exact absurd h (by simp)
  | ok r =>
    cases r with
    | none => intro h; exact absurd h (by simp)
    | some trip =>
      obtain ⟨values, comments, dflt⟩ := trip
      simp only [htr, if_true, hgd]
      intro h
      have hobj : _ = obj := Option.some.inj (Except.ok.inj h)
      rw [← hobj]
      have hbase : sget (sset ([] : Obj) "name" (.str nm)) "name" = some (.str nm) :=
        sget_sset_same ..
      cases aGet param "comment" with
      | none =>
        cases dflt with
        | none =>
          by_cases hc : comments.isEmpty = true
          · simp only [hc, Bool.not_true, Bool.false_eq_true, if_false]
            rw [sget_sset_ne _ _ _ _ (by decide)]
            exact hbase
          · simp only [Bool.not_eq_true] at hc
            simp only [hc, Bool.not_false, if_true]
            rw [sget_sset_ne _ _ _ _ (by decide), sget_sset_ne _ _ _ _ (by decide)]
            exact hbase
        | some d =>
          by_cases hc : comments.isEmpty = true
          · simp only [hc, Bool.not_true, Bool.false_eq_true, if_false]
            rw [sget_sset_ne _ _ _ _ (by decide), sget_sset_ne _ _ _ _ (by decide)]
            exact hbase
          · simp only [Bool.not_eq_true] at hc
            simp only [hc, Bool.not_false, if_true]
            rw [sget_sset_ne _ _ _ _ (by decide), sget_sset_ne _ _ _ _ (by decide),
              sget_sset_ne _ _ _ _ (by decide)]
            exact hbase
      | some descr =>
        cases dflt with
        | none =>
          by_cases hc : comments.isEmpty = true
          · simp only [hc, Bool.not_true, Bool.false_eq_true, if_false]
            rw [sget_sset_ne _ _ _ _ (by decide), sget_sset_ne _ _ _ _ (by decide)]
            exact hbase
          · simp only [Bool.not_eq_true] at hc
            simp only [hc, Bool.not_false, if_true]
            rw [sget_sset_ne _ _ _ _ (by decide), sget_sset_ne _ _ _ _ (by decide),
              sget_sset_ne _ _ _ _ (by decide)]
            exact hbase
        | some d =>
          by_cases hc : comments.isEmpty = true
          · simp only [hc, Bool.not_true, Bool.false_eq_true, if_false]
            rw [sget_sset_ne _ _ _ _ (by decide), sget_sset_ne _ _ _ _ (by decide),
              sget_sset_ne _ _ _ _ (by decide)]
            exact hbase
          · simp only [Bool.not_eq_true] at hc
            simp only [hc, Bool.not_false, if_true]
            rw [sget_sset_ne _ _ _ _ (by decide), sget_sset_ne _ _ _ _ (by decide),
              sget_sset_ne _ _ _ _ (by decide), sget_sset_ne _ _ _ _ (by decide)]
            exact hbase

/-- Any parameter with a truthy name attribute that converts to an object
keeps that name under the name key, in every branch of getJsonParam. -/
theorem getJsonParam_name (n : Nat) (param : Element) (nm : String) (obj : Obj)
    (hname : aGet param "name" = some nm) (hnm : nm ≠ "")
    (h : getJsonParam n param = .ok (some obj)) :
    sget obj "name" = some (.str nm) := by
  have htr : truthyOpt (aGet param "name") = true := by rw [hname]; simpa [truthyOpt] using hnm
  have hgd : (aGet param "name").getD "" = nm := by rw [hname]; rfl
  cases n with
  | zero => exact absurd h (by simp [getJsonParam])
  | succ n =>
    revert h
    unfold getJsonParam
    by_cases hch : (aGet param "type" == some "choice") = true
    · simp only [hch, if_true]
      intro h
      exact getChoiceJsonParam_name param nm obj hname hnm h
    · have hch2 : (aGet param "type" == some "choice") = false := by simpa using hch
      simp only [hch2, Bool.false_eq_true, if_false]
      cases hnt : (match aGet param "type" with
        | some t =>
          if t != "" then
            match lookupParamType t with
            | some pt => Except.ok pt
            | Option.none => Except.error (PyErr.keyError t)
          else Except.ok defaultParamType
        | Option.none => Except.ok defaultParamType : Except PyErr ParamType) with
      | error e => intro h; exact absurd h (by simp)
      | ok newType =>
        by_cases hv : truthyOpt (aGet param "value") = true
        · simp only [hv, if_true, hname]
          intro h
          have hobj : _ = obj := Option.some.inj (Except.ok.inj h)
          rw [← hobj]
          rw [sget_addParamExtraAttrs _ _ _ (by decide) (by decide)]
          rfl
        · have hv2 : truthyOpt (aGet param "value") = false := by simpa using hv
          simp only [hv2, Bool.false_eq_true, if_false]
          cases hs1 : (if newType.type.containsArray = true
              then getListSchema n param newType.type
              else Except.ok [(.str "type", newType.type.toPyVal)]) with
          | error e => intro h; exact absurd h (by simp)
          | ok schema =>
            dsimp only
            cases hs2 : (if (newType.pattern != "") = true
                then Except.ok (sset schema "pattern" (.str newType.pattern))
                else if (aGet param "type" == some "dict") = true
                  then setDictParamsSchema n param schema
                  else Except.ok schema) with
            | error e => intro h; exact absurd h (by simp)
            | ok schema2 =>
              simp only [htr, if_true, hgd]
              intro h
              have hobj : _ = obj := Option.some.inj (Except.ok.inj h)
              rw [← hobj]
              rw [sget_addParamExtraAttrs _ _ _ (by decide) (by decide)]
              show sget (sset (sset (sset [] "name" (.str nm)) "description" _) "schema" _)
                "name" = some (.str nm)
              rw [sget_sset_ne _ _ _ _ (by decide), sget_sset_ne _ _ _ _ (by decide)]
              exact sget_sset_same ..

/-- Every object produced by the getParams loop carries the non-empty
name of its source param attribute. -/
theorem getParamsGo_names (cs : List Element) : ∀ (n : Nat) (ps : List Obj),
    getParamsGo n cs = .ok ps →
    ∀ o ∈ ps, ∃ s, sget o "name" = some (.str s) ∧ s ≠ "" := by
  induction cs with
  | nil =>
    intro n ps h o ho
    cases n with
    | zero => exact absurd h (by simp [getParamsGo])
    | succ n =>
      have : ([] : List Obj) = ps := Except.ok.inj h
      rw [← this] at ho
      exact absurd ho (by simp)
  | cons c rest ih =>
    intro n ps h o ho
    cases n with
    | zero => exact absurd h (by simp [getParamsGo])
    | succ n =>
      revert h
      unfold getParamsGo
      by_cases ht : (c.tag != "param") = true
      · simp only [ht, if_true]
        intro h
        exact ih n ps h o ho
      · have ht2 : (c.tag != "param") = false := by simpa using ht
        simp only [ht2, Bool.false_eq_true, if_false]
        by_cases hn : truthyOpt (aGet c "name") = true
        · simp only [hn, Bool.not_true, Bool.false_eq_true, if_false]
          cases hjp : getJsonParam n c with
          | error e => intro h; exact absurd h (by simp)
          | ok jp? =>
            cases jp? with
            | none =>
              intro h
              exact ih n ps h o ho
            | some jp =>
              cases hrest : getParamsGo n rest with
              | error e => intro h; exact absurd h (by simp)
              | ok restPs =>
                intro h
                have : jp :: restPs = ps := Except.ok.inj h
                rw [← this] at ho
                rcases List.mem_cons.mp ho with rfl | hmem
                · obtain ⟨s, hs, hsne⟩ : ∃ s, aGet c "name" = some s ∧ s ≠ "" := by
                    cases hac : aGet c "name" with
                    | none => rw [hac] at hn; exact absurd hn (by simp [truthyOpt])
                    | some s =>
                      refine ⟨s, rfl, ?_⟩
                      rw [hac] at hn
                      simpa [truthyOpt] using hn
                  exact ⟨s, getJsonParam_name n c s o hs hsne hjp, hsne⟩
                · exact ih n restPs hrest o hmem
        · have hn2 : truthyOpt (aGet c "name") = false := by simpa using hn
          simp only [hn2, Bool.not_false, if_true]
          intro h
          exact ih n ps h o ho

/-- A concrete dynamic-keys dict whose value child carries a literal
value attribute and no name. -/
def c9param : Element :=
  .mk "param" [("name", "p"), ("type", "dict"), ("dynamic_keys", "true")]
    [.mk "key" [("type", "str")] [], .mk "value" [("value", "x")] []]

/-- The value fragment the conversion emits for it: it carries a name
key whose value is Python None. -/
def c9valueFragment : Obj :=
  [(.str "name", PyVal.none), (.str "description", .str ""), (.str "enum", .list [.str "x"])]

/-- C9 counterexample: the flattened dynamic-keys value fragment of a
concrete parameter is emitted with a name key equal to None — an emitted
parameter object carrying a null name key, contradicting the claim that
no emitted parameter object carries an empty or null name. -/
theorem c9_counterexample :
    getJsonParam 9 c9param = .ok (some
      [(.str "name", .str "p"),
       (.str "description", .str ""),
       (.str "schema", .dict
         [(.str "type", .str "object"),
          (.str "dynamic_keys", .bool true),
          (.str "__key__", .dict [(.str "type", .str "str"), (.str "title", .str "")]),
          (.str "__value__", .dict c9valueFragment),
          (.str "properties", .dict [])])]) ∧
    sget c9valueFragment "name" = some PyVal.none :=
  ⟨rfl, rfl⟩

/-- C9 (amended): every entry of a method's params list carries a
non-empty name (getParams guards the name before conversion and every
branch of getJsonParam copies a truthy name), and every converted method
is named handler.method with both parts non-empty; however, a parameter
emitted through the literal-value branch always carries a name key copied
verbatim, which is None for a nameless dynamic-keys value element (the
counterexample above). -/
theorem c9_nonempty_names :
    (∀ (n : Nat) (e : Element) (ps : List Obj),
      getParams n e = .ok ps →
      ∀ o ∈ ps, ∃ s, sget o "name" = some (.str s) ∧ s ≠ "") ∧
    (∀ (n : Nat) (hn : String) (m : Element) (a : List String) (jm : Obj),
      hn ≠ "" →
      getJsonMethod n hn m a = .ok (some jm) →
      ∃ mn, aGet m "name" = some mn ∧ mn ≠ "" ∧
        sget jm "name" = some (.str (hn ++ "." ++ mn)) ∧
        ∃ ps : List Obj, sget jm "params" = some (.list (ps.map PyVal.dict)) ∧
          ∀ o ∈ ps, ∃ s, sget o "name" = some (.str s) ∧ s ≠ "") := by
  have hParams : ∀ (n : Nat) (e : Element) (ps : List Obj),
      getParams n e = .ok ps →
      ∀ o ∈ ps, ∃ s, sget o "name" = some (.str s) ∧ s ≠ "" := by
    intro n e ps h
    cases n with
    | zero => exact absurd h (by simp [getParams])
    | succ n => exact getParamsGo_names e.children n ps h
  refine ⟨hParams, ?_⟩
  intro n hn m a jm hhn h
  revert h
  unfold getJsonMethod
  by_cases ht : (m.tag != "method") = true
  · simp only [ht, if_true]
    intro h
    exact absurd h (by simp)
  · have ht2 : (m.tag != "method") = false := by simpa using ht
    simp only [ht2, Bool.false_eq_true, if_false]
    by_cases hnm : truthyOpt (aGet m "name") = true
    · simp only [hnm, Bool.not_true, Bool.false_eq_true, if_false]
      obtain ⟨mn, hmn, hmnne⟩ : ∃ s, aGet m "name" = some s ∧ s ≠ "" := by
        cases hac : aGet m "name" with
        | none => rw [hac] at hnm; exact absurd hnm (by simp [truthyOpt])
        | some s =>
          refine ⟨s, rfl, ?_⟩
          rw [hac] at hnm
          simpa [truthyOpt] using hnm
      have hgd : (aGet m "name").getD "" = mn := by rw [hmn]; rfl
      cases pyFind m "input" with
      | none => intro h; exact absurd h (by simp)
      | some inp =>
        dsimp only
        cases pyFind m "output" with
        | none => intro h; exact absurd h (by simp)
        | some outp =>
          dsimp only
          cases hps : getParams n inp with
          | error e => intro h; exact absurd h (by simp)
          | ok ps =>
            dsimp only [hgd]
            cases hbr : buildResult n outp with
            | error e => intro h; exact absurd h (by simp)
            | ok res? =>
              cases res? with
              | none => intro h; exact absurd h (by simp)
              | some result =>
                intro h
                have hobj : _ = jm := Option.some.inj (Except.ok.inj h)
                rw [← hobj]
                refine ⟨mn, hmn, hmnne, ?_, ?_⟩
                · rw [sget_sset_ne _ _ _ _ (by decide), sget_sset_ne _ _ _ _ (by decide)]
                  by_cases hrp : truthyOpt (aGet m "requires_perm") = true
                  · simp only [hrp, if_true]
                    rw [sget_sset_ne _ _ _ _ (by decide), hgd]
                    rfl
                  · have hrp2 : truthyOpt (aGet m "requires_perm") = false := by simpa using hrp
                    simp only [hrp2, Bool.false_eq_true, if_false]
                    rw [hgd]
                    rfl
                · refine ⟨ps, ?_, hParams n inp ps hps⟩
                  rw [sget_sset_ne _ _ _ _ (by decide)]
                  exact sget_sset_same ..
    · have hnm2 : truthyOpt (aGet m "name") = false := by simpa using hnm
      simp only [hnm2, Bool.not_false, if_true]
      intro h
      exact absurd h (by simp)

/-- A concrete input element with one named parameter, for the C9
witness. -/
def c9winput : Element := .mk "input" [] [.mk "param" [("name", "p"), ("type", "int")] []]

/-- The object getParams emits for it. -/
def c9wpobj : Obj :=
  [(.str "name", .str "p"), (.str "description", .str ""),
   (.str "schema", .dict [(.str "type", .str "number")])]

/-- A concrete well-formed method for the C9 witness. -/
def c9wmethod : Element :=
  .mk "method" [("name", "m"), ("auth_type", "ADMIN")]
    [.mk "input" [] [], .mk "output" [("type", "bool")] []]

/-- The descriptor getJsonMethod emits for it. -/
def c9wjm : Obj :=
  [(.str "name", .str "h.m"),
   (.str "description", .str ""),
   (.str "auth_type", .list [.str "ADMIN"]),
   (.str "params", .list []),
   (.str "result", .dict
     [(.str "name", .str "Response (boolean)"),
      (.str "comment", .str ""),
      (.str "schema", .dict [(.str "title", .str ""), (.str "type", .str "boolean")])])]

/-- Witness for the amended C9 at a concrete params list and a concrete
method. -/
theorem c9_nonempty_names_witness :
    getParams 3 c9winput = .ok [c9wpobj] ∧
    (∃ s, sget c9wpobj "name" = some (.str s) ∧ s ≠ "") ∧
    getJsonMethod 2 "h" c9wmethod ["ADMIN"] = .ok (some c9wjm) ∧
    (∃ mn, aGet c9wmethod "name" = some mn ∧ mn ≠ "" ∧
      sget c9wjm "name" = some (.str ("h" ++ "." ++ mn)) ∧
      ∃ ps : List Obj, sget c9wjm "params" = some (.list (ps.map PyVal.dict)) ∧
        ∀ o ∈ ps, ∃ s, sget o "name" = some (.str s) ∧ s ≠ "") :=
  ⟨rfl, c9_nonempty_names.1 3 c9winput [c9wpobj] rfl c9wpobj (by simp), rfl,
   c9_nonempty_names.2 2 "h" c9wmethod ["ADMIN"] c9wjm (by decide) rfl⟩

/-- Spec-side comparator (from the spec wording of C6): the enum value
contributed by one choice child — its value attribute, int-coerced when
the child declares type int. -/
def specChoiceValue (c : Element) : PyVal :=
  match aGet c "value" with
  | Option.none => .str ""
  | some v =>
    if aGet c "type" == some "int" then
      match pyInt v with
      | some k => .int k
      | Option.none => .str v
    else .str v

/-- Spec-side comparator: the enum list in document order, no dedup, no
sort. -/
def specChoiceValues (cs : List Element) : List PyVal := cs.map specChoiceValue

/-- Spec-side comparator: the default carried through the loop — the
value of the last child marked default, if any, starting from a given
accumulator. -/
def specChoiceDefaultFrom (df : Option PyVal) (cs : List Element) : Option PyVal :=
  cs.foldl (fun acc c => if truthyOpt (aGet c "default") then some (specChoiceValue c) else acc) df

/-- Spec-side comparator: the emitted (uncoerced) default of a choice
parameter. -/
def specChoiceDefault (cs : List Element) : Option PyVal :=
  specChoiceDefaultFrom Option.none cs

/-- Setting a key never empties a dict. -/
theorem dSet_not_isEmpty (o : Obj) (k v : PyVal) : (dSet o k v).isEmpty = false := by
  cases o with
  | nil => rfl
  | cons p rest =>
    obtain ⟨pk, pv⟩ := p
    by_cases h : pyKeyBeq pk k = true
    · simp [dSet, h]
    · simp only [Bool.not_eq_true] at h
      simp [dSet, h]

/-- The choice collection loop on a well-formed child list: the values
are appended in document order, the default is the last marked value,
and the comments stay empty exactly when none of the children carries a
truthy comment. -/
theorem choiceLoop_ok (cs : List Element)
    (hwf : ∀ c ∈ cs, c.tag = "choice" ∧ (∃ v, aGet c "value" = some v) ∧
      (aGet c "type" = some "int" → (pyInt ((aGet c "value").getD "")).isSome = true)) :
    ∀ (vs : List PyVal) (cm : Obj) (df : Option PyVal),
    ∃ cm2 : Obj,
      choiceLoop cs vs cm df =
        .ok (some (vs ++ specChoiceValues cs, cm2, specChoiceDefaultFrom df cs)) ∧
      cm2.isEmpty = (cm.isEmpty && !(cs.any (fun c => truthyOpt (aGet c "comment")))) := by
  induction cs with
  | nil =>
    intro vs cm df
    exact ⟨cm, by simp [choiceLoop, specChoiceValues, specChoiceDefaultFrom], by simp⟩
  | cons c rest ih =>
    intro vs cm df
    obtain ⟨htag, ⟨v, hv⟩, hint⟩ := hwf c (List.mem_cons_self ..)
    have hwfr : ∀ x ∈ rest, x.tag = "choice" ∧ (∃ w, aGet x "value" = some w) ∧
        (aGet x "type" = some "int" → (pyInt ((aGet x "value").getD "")).isSome = true) :=
      fun x hx => hwf x (List.mem_cons_of_mem _ hx)
    have hcoerce : (if truthyOpt (aGet c "type") then
        if aGet c "type" == some "int" then
          match pyInt v with
          | some k => Except.ok (PyVal.int k)
          | Option.none => Except.error (PyErr.valueError v)
        else Except.ok (PyVal.str v)
      else Except.ok (PyVal.str v)) = Except.ok (specChoiceValue c) := by
      by_cases hi : aGet c "type" = some "int"
      · have : (pyInt v).isSome = true := by
          have := hint hi
          rwa [hv] at this
        obtain ⟨k, hk⟩ := Option.isSome_iff_exists.mp this
        simp [hi, truthyOpt, specChoiceValue, hv, hk]
      · by_cases ht : truthyOpt (aGet c "type") = true
        · have hne : (aGet c "type" == some "int") = false := by
            simpa using hi
          simp [ht, hne, specChoiceValue, hv]
        · have ht2 : truthyOpt (aGet c "type") = false := by simpa using ht
          have hne : (aGet c "type" == some "int") = false := by
            simpa using hi
          simp [ht2, hne, specChoiceValue, hv]
      -- in every branch the contributed value is specChoiceValue c
    have hstep : choiceLoop (c :: rest) vs cm df =
        choiceLoop rest (vs ++ [specChoiceValue c])
          (if truthyOpt (aGet c "comment") then
            dSet cm (specChoiceValue c) (.str (aGetD c "comment" "")) else cm)
          (if truthyOpt (aGet c "default") then some (specChoiceValue c) else df) := by
      simp only [choiceLoop, htag, bne_self_eq_false, Bool.false_eq_true, if_false, hv, hcoerce]
    by_cases hcm : truthyOpt (aGet c "comment") = true
    · obtain ⟨cm2, hloop, hempty⟩ := ih hwfr (vs ++ [specChoiceValue c])
        (dSet cm (specChoiceValue c) (.str (aGetD c "comment" "")))
        (if truthyOpt (aGet c "default") then some (specChoiceValue c) else df)
      refine ⟨cm2, ?_, ?_⟩
      · rw [hstep, if_pos hcm, hloop]
        simp [specChoiceValues, specChoiceDefaultFrom]
      · rw [hempty, dSet_not_isEmpty]
        simp [hcm]
    · have hcm2 : truthyOpt (aGet c "comment") = false := by simpa using hcm
      obtain ⟨cm2, hloop, hempty⟩ := ih hwfr (vs ++ [specChoiceValue c]) cm
        (if truthyOpt (aGet c "default") then some (specChoiceValue c) else df)
      refine ⟨cm2, ?_, ?_⟩
      · rw [hstep, hcm2]
        simp only [Bool.false_eq_true, if_false]
        rw [hloop]
        simp [specChoiceValues, specChoiceDefaultFrom]
      · rw [hempty]
        simp [hcm2]

/-- Key layout of the object getChoiceJsonParam builds from the loop
results: the enum is present with the collected values, value_comment is
present exactly when a comment was collected, and the default key carries
the coerced default exactly when one was collected. -/
theorem getChoiceJsonParam_build (param : Element) (values : List PyVal) (cm : Obj)
    (df : Option PyVal)
    (hloop : choiceLoop param.children [] [] Option.none = .ok (some (values, cm, df))) :
    ∃ obj : Obj, getChoiceJsonParam param = .ok (some obj) ∧
      sget obj "enum" = some (.list values) ∧
      shas obj "value_comment" = !cm.isEmpty ∧
      (∀ d, df = some d → sget obj "default" = some (coerceDefault d)) ∧
      (df = Option.none → shas obj "default" = false) := by
  unfold getChoiceJsonParam
  rw [hloop]
  dsimp only
  refine ⟨_, rfl, ?_, ?_, ?_, ?_⟩
  all_goals
    rcases df with _ | d1 <;>
    rcases hdesc : aGet param "comment" with _ | d0 <;>
    by_cases h1 : truthyOpt (aGet param "name") = true <;>
    by_cases h2 : cm.isEmpty = true <;>
    simp_all [sget, sset, shas, dGet, dSet, dHas, pyKeyBeq]

/-- The concrete round-trip choice parameter of the claim: values a and
b, the first marked default, no comments. -/
def c6param : Element :=
  .mk "param" [("name", "p"), ("type", "choice")]
    [.mk "choice" [("value", "a"), ("default", "true")] [],
     .mk "choice" [("value", "b")] []]

/-- C6: for a choice parameter whose children are all choice elements
each carrying a value (and whose int-typed values parse, else Python
would raise ValueError), the emitted enum lists the coerced values in
document order with no dedup and no sort, value_comment is present
exactly when some child carries a truthy comment, and the default is the
last marked value coerced to bool or int where possible; the concrete
round trip for values a, b with default a gives enum a,b, default a and
no value_comment key. -/
theorem c6_choice_enum_default_comments :
    (∀ (param : Element),
      (∀ c ∈ param.children, c.tag = "choice" ∧ (∃ v, aGet c "value" = some v) ∧
        (aGet c "type" = some "int" → (pyInt ((aGet c "value").getD "")).isSome = true)) →
      ∃ obj : Obj, getChoiceJsonParam param = .ok (some obj) ∧
        sget obj "enum" = some (.list (specChoiceValues param.children)) ∧
        shas obj "value_comment" = param.children.any (fun c => truthyOpt (aGet c "comment")) ∧
        (∀ d, specChoiceDefault param.children = some d →
          sget obj "default" = some (coerceDefault d)) ∧
        (specChoiceDefault param.children = Option.none → shas obj "default" = false)) ∧
    getChoiceJsonParam c6param = .ok (some
      [(.str "name", .str "p"), (.str "enum", .list [.str "a", .str "b"]),
       (.str "default", .str "a")]) ∧
    shas [((PyVal.str "name"), (PyVal.str "p")),
          ((PyVal.str "enum"), (PyVal.list [.str "a", .str "b"])),
          ((PyVal.str "default"), (PyVal.str "a"))] "value_comment" = false := by
  refine ⟨?_, rfl, rfl⟩
  intro param hwf
  obtain ⟨cm2, hloop, hempty⟩ := choiceLoop_ok param.children hwf [] [] Option.none
  obtain ⟨obj, hobj, henum, hvc, hds, hdn⟩ :=
    getChoiceJsonParam_build param _ cm2 _ hloop
  refine ⟨obj, hobj, by simpa using henum, ?_, hds, hdn⟩
  rw [hvc, hempty]
  simp

/-- Witness for C6: the universal part applied at the concrete round-trip
parameter. -/
theorem c6_choice_enum_default_comments_witness :
    ∃ obj : Obj, getChoiceJsonParam c6param = .ok (some obj) ∧
      sget obj "enum" = some (.list (specChoiceValues c6param.children)) ∧
      shas obj "value_comment" = c6param.children.any (fun c => truthyOpt (aGet c "comment")) ∧
      (∀ d, specChoiceDefault c6param.children = some d →
        sget obj "default" = some (coerceDefault d)) ∧
      (specChoiceDefault c6param.children = Option.none → shas obj "default" = false) :=
  c6_choice_enum_default_comments.1 c6param (by
    intro c hc
    have hc2 : c = Element.mk "choice" [("value", "a"), ("default", "true")] [] ∨
        c = Element.mk "choice" [("value", "b")] [] := by
      simpa [c6param, Element.children] using hc
    rcases hc2 with rfl | rfl
    · exact ⟨rfl, ⟨"a", rfl⟩, fun h => Option.noConfusion h⟩
    · exact ⟨rfl, ⟨"b", rfl⟩, fun h => Option.noConfusion h⟩)

/-- C7: a dict parameter with dynamic_keys true, a key child of type str
with a comment, and a value child of type int emits schema.dynamic_keys
true, schema.__key__ = type str / title comment, and a flattened
schema.__value__ recording the mapped int type (number); and when a key
child is present without a value child, __key__ and __value__ are
omitted, dynamic_keys stays true, and processing continues (the
properties key is still attached and the parameter still converts). -/
theorem c7_dynamic_keys_dict :
    (∀ (n : Nat) (param kel vel : Element) (kc : String) (subs : List Obj) (props : Obj),
      aGet param "type" = some "dict" →
      aGet param "dynamic_keys" = some "true" →
      aGet param "value" = Option.none →
      pyFind param "key" = some kel →
      pyFind param "value" = some vel →
      aGet kel "type" = some "str" → aGet kel "comment" = some kc →
      aGet vel "type" = some "int" →
      aGet vel "value" = Option.none →
      getParams (n + 2) param = .ok subs →
      buildProperties subs [] = .ok props →
      ∃ pj schema : Obj, getJsonParam (n + 4) param = .ok (some pj) ∧
        sget pj "schema" = some (.dict schema) ∧
        sget schema "dynamic_keys" = some (.bool true) ∧
        sget schema "__key__" =
          some (.dict [(.str "type", .str "str"), (.str "title", .str kc)]) ∧
        ∃ vj : Obj, sget schema "__value__" = some (.dict vj) ∧
          sget vj "type" = some (.str "number")) ∧
    (∀ (n : Nat) (param kel : Element) (subs : List Obj) (props : Obj),
      aGet param "type" = some "dict" →
      aGet param "dynamic_keys" = some "true" →
      aGet param "value" = Option.none →
      pyFind param "key" = some kel →
      pyFind param "value" = Option.none →
      getParams (n + 2) param = .ok subs →
      buildProperties subs [] = .ok props →
      ∃ pj schema : Obj, getJsonParam (n + 4) param = .ok (some pj) ∧
        sget pj "schema" = some (.dict schema) ∧
        sget schema "dynamic_keys" = some (.bool true) ∧
        shas schema "__key__" = false ∧
        shas schema "__value__" = false ∧
        sget schema "properties" = some (.dict props)) := by
  constructor
  · intro n param kel vel kc subs props hT hdk hvalattr hfk hfv hkt hkc hvt hvv hsubs hprops
    have hvfalse : truthyOpt (aGet vel "value") = false := by rw [hvv]; rfl
    obtain ⟨vj0, hvjp, hschema0⟩ : ∃ vj0, getJsonParam (n + 1) vel = .ok (some vj0) ∧
        sget vj0 "schema" = some (.dict [(.str "type", .str "number")]) := by
      simp only [getJsonParam, hvt, hvfalse, Bool.false_eq_true, if_false, if_true,
        show (some "int" == some "choice") = false from rfl,
        show (("int" : String) != "") = true from rfl,
        show lookupParamType "int" = some ⟨JsonTy.single "number", "", ""⟩ from rfl,
        show (JsonTy.single "number").containsArray = false from rfl,
        show ((ParamType.mk (JsonTy.single "number") "" "").pattern != "") = false from rfl,
        show (some "int" == some "dict") = false from rfl, JsonTy.toPyVal]
      exact ⟨_, rfl, sget_schema_assemble ..⟩
    have hflat : sget (flattenSchema vj0) "type" = some (.str "number") := by
      unfold flattenSchema
      rw [hschema0]
      exact sget_sset_same ..
    have hk1 : aGetD kel "type" "" = "str" := by simp [aGetD, hkt]
    have hk2 : aGetD kel "comment" "" = kc := by simp [aGetD, hkc]
    have hsdk : setDynamicKeys (n + 2) param [(.str "type", .str "object")] =
        .ok (sset (sset (sset [(.str "type", .str "object")] "dynamic_keys" (.bool true))
          "__key__" (.dict [(.str "type", .str "str"), (.str "title", .str kc)]))
          "__value__" (.dict (flattenSchema vj0))) := by
      simp only [setDynamicKeys, hfk, hfv, hk1, hk2, hvjp]
    have hsdict : setDictParamsSchema (n + 3) param [(.str "type", .str "object")] =
        .ok (sset (sset (sset (sset [(.str "type", .str "object")]
          "dynamic_keys" (.bool true))
          "__key__" (.dict [(.str "type", .str "str"), (.str "title", .str kc)]))
          "__value__" (.dict (flattenSchema vj0)))
          "properties" (.dict props)) := by
      simp only [setDictParamsSchema, hsubs, hprops, hdk, hsdk,
        show (some "true" == some "true") = true from rfl, if_true]
    have hvpfalse : truthyOpt (aGet param "value") = false := by rw [hvalattr]; rfl
    simp only [getJsonParam, hT, hvpfalse, Bool.false_eq_true, if_false, if_true,
      show (some "dict" == some "choice") = false from rfl,
      show (("dict" : String) != "") = true from rfl,
      show lookupParamType "dict" = some ⟨JsonTy.single "object", "", ""⟩ from rfl,
      show (JsonTy.single "object").containsArray = false from rfl,
      show ((ParamType.mk (JsonTy.single "object") "" "").pattern != "") = false from rfl,
      show (some "dict" == some "dict") = true from rfl, JsonTy.toPyVal, hsdict]
    refine ⟨_, _, rfl, sget_schema_assemble .., ?_, ?_, ⟨flattenSchema vj0, ?_, hflat⟩⟩
    · rw [sget_sset_ne _ _ _ _ (by decide), sget_sset_ne _ _ _ _ (by decide),
        sget_sset_ne _ _ _ _ (by decide)]
      exact sget_sset_same ..
    · rw [sget_sset_ne _ _ _ _ (by decide), sget_sset_ne _ _ _ _ (by decide)]
      exact sget_sset_same ..
    · rw [sget_sset_ne _ _ _ _ (by decide)]
      exact sget_sset_same ..
  · intro n param kel subs props hT hdk hvalattr hfk hfv hsubs hprops
    have hsdk : setDynamicKeys (n + 2) param [(.str "type", .str "object")] =
        .ok (sset [(.str "type", .str "object")] "dynamic_keys" (.bool true)) := by
      simp only [setDynamicKeys, hfk, hfv]
    have hsdict : setDictParamsSchema (n + 3) param [(.str "type", .str "object")] =
        .ok (sset (sset [(.str "type", .str "object")] "dynamic_keys" (.bool true))
          "properties" (.dict props)) := by
      simp only [setDictParamsSchema, hsubs, hprops, hdk, hsdk,
        show (some "true" == some "true") = true from rfl, if_true]
    have hvpfalse : truthyOpt (aGet param "value") = false := by rw [hvalattr]; rfl
    simp only [getJsonParam, hT, hvpfalse, Bool.false_eq_true, if_false, if_true,
      show (some "dict" == some "choice") = false from rfl,
      show (("dict" : String) != "") = true from rfl,
      show lookupParamType "dict" = some ⟨JsonTy.single "object", "", ""⟩ from rfl,
      show (JsonTy.single "object").containsArray = false from rfl,
      show ((ParamType.mk (JsonTy.single "object") "" "").pattern != "") = false from rfl,
      show (some "dict" == some "dict") = true from rfl, JsonTy.toPyVal, hsdict]
    refine ⟨_, _, rfl, sget_schema_assemble .., ?_, rfl, rfl, sget_sset_same ..⟩
    rw [sget_sset_ne _ _ _ _ (by decide)]
    exact sget_sset_same ..

/-- Concrete dynamic-keys dict parameter with key and value children. -/
def c7param : Element :=
  .mk "param" [("name", "d"), ("type", "dict"), ("dynamic_keys", "true")]
    [.mk "key" [("type", "str"), ("comment", "k")] [], .mk "value" [("type", "int")] []]

/-- Concrete dynamic-keys dict parameter with a key child only. -/
def c7param2 : Element :=
  .mk "param" [("name", "d"), ("type", "dict"), ("dynamic_keys", "true")]
    [.mk "key" [("type", "str"), ("comment", "k")] []]

/-- Witness for C7: both parts applied at the concrete parameters. -/
theorem c7_dynamic_keys_dict_witness :
    (∃ pj schema : Obj, getJsonParam 6 c7param = .ok (some pj) ∧
      sget pj "schema" = some (.dict schema) ∧
      sget schema "dynamic_keys" = some (.bool true) ∧
      sget schema "__key__" =
        some (.dict [(.str "type", .str "str"), (.str "title", .str "k")]) ∧
      ∃ vj : Obj, sget schema "__value__" = some (.dict vj) ∧
        sget vj "type" = some (.str "number")) ∧
    (∃ pj schema : Obj, getJsonParam 5 c7param2 = .ok (some pj) ∧
      sget pj "schema" = some (.dict schema) ∧
      sget schema "dynamic_keys" = some (.bool true) ∧
      shas schema "__key__" = false ∧
      shas schema "__value__" = false ∧
      sget schema "properties" = some (.dict [])) :=
  ⟨c7_dynamic_keys_dict.1 2 c7param (.mk "key" [("type", "str"), ("comment", "k")] [])
     (.mk "value" [("type", "int")] []) "k" [] [] rfl rfl rfl rfl rfl rfl rfl rfl rfl rfl rfl,
   c7_dynamic_keys_dict.2 1 c7param2 (.mk "key" [("type", "str"), ("comment", "k")] [])
     [] [] rfl rfl rfl rfl rfl rfl rfl⟩

/-- A concrete output with both a value attribute and a non-choice type
attribute. -/
def c5out1 : Element := .mk "output" [("value", "x"), ("type", "int")] []

/-- The result descriptor emitted for it. -/
def c5res1 : Obj :=
  [(.str "name", .str "Response (one of following values)"),
   (.str "comment", .str ""),
   (.str "schema", .dict [(.str "title", .str ""), (.str "type", .str "number")]),
   (.str "enum", .list [.str "x"])]

/-- A concrete output with a value attribute and type choice. -/
def c5out2 : Element :=
  .mk "output" [("value", "x"), ("type", "choice")] [.mk "choice" [("value", "y")] []]

/-- The result descriptor emitted for it. -/
def c5res2 : Obj :=
  [(.str "name", .str "Response (one of following values)"),
   (.str "comment", .str ""),
   (.str "enum", .list [.str "y"])]

/-- C5 counterexample: with value x and type int the emitted result
carries both a schema key and an enum key (the forms are not mutually
exclusive), and with value x and type choice the emitted enum is the
collected choice list, not the value (the value attribute does not take
priority over the type attribute). -/
theorem c5_counterexample :
    buildResult 5 c5out1 = .ok (some c5res1) ∧
    shas c5res1 "enum" = true ∧
    shas c5res1 "schema" = true ∧
    buildResult 5 c5out2 = .ok (some c5res2) ∧
    aGet c5out2 "value" = some "x" ∧
    sget c5res2 "enum" = some (.list [.str "y"]) :=
  ⟨rfl, rfl, rfl, rfl, rfl, rfl⟩


/-- C5 (amended): output resolution as the code implements it.  For every
output element that produces a result descriptor: the enum key is present
exactly when the value attribute is truthy or the type attribute is
choice; a choice type always yields the collected enum, overriding any
value-derived enum; a truthy value with a non-choice type yields the
single-element enum; a truthy non-choice type resolved through the table
contributes a schema key exactly when the mapped type is truthy, and that
schema can coexist with the enum; with a falsy or choice type there is no
schema key. -/
theorem c5_output_resolution (n : Nat) (out : Element) (res : Obj)
    (h : buildResult n out = .ok (some res)) :
    shas res "enum" = (truthyOpt (aGet out "value") || (aGet out "type" == some "choice")) ∧
    ((aGet out "type" == some "choice") = true →
      sget res "enum" = some (.list (outputChoiceValues out.children))) ∧
    (truthyOpt (aGet out "value") = true → (aGet out "type" == some "choice") = false →
      sget res "enum" = some (.list [.str ((aGet out "value").getD "")])) ∧
    (∀ T pt, aGet out "type" = some T → T ≠ "" → T ≠ "choice" →
      lookupParamType T = some pt → shas res "schema" = pt.type.truthy) ∧
    ((truthyOpt (aGet out "type") = false ∨ (aGet out "type" == some "choice") = true) →
      shas res "schema" = false) := by
  revert h
  unfold buildResult
  by_cases hch : (aGet out "type" == some "choice") = true
  · have hts : aGet out "type" = some "choice" := by
      cases hat : aGet out "type" with
      | none => rw [hat] at hch; exact absurd hch (by decide)
      | some t =>
        rw [hat] at hch
        have ht2 : t = "choice" := by simpa using hch
        rw [ht2]
    have htt : truthyOpt (aGet out "type") = true := by rw [hts]; rfl
    simp only [hch, htt, Bool.not_true, Bool.and_false, Bool.false_eq_true, if_false, if_true,
      show defaultParamType.type.truthy = false from rfl]
    cases hrp : resultParamsGo n out.children [] with
    | error e => intro h; exact absurd h (by simp)
    | ok rp =>
      dsimp only
      intro h
      have hres : _ = res := Option.some.inj (Except.ok.inj h)
      rw [← hres]
      refine ⟨?_, ?_, ?_, ?_, ?_⟩
      · simp only [Bool.or_true]
        exact shas_sset_same ..
      · intro _
        exact sget_sset_same ..
      · intro _ h2
        exact absurd h2 (by decide)
      · intro T pt hT hTne hTch hlk
        rw [hts] at hT
        exact absurd (Option.some.inj hT).symm hTch
      · intro _
        rfl
  · have hch2 : (aGet out "type" == some "choice") = false := by simpa using hch
    simp only [hch2, Bool.false_eq_true, if_false]
    by_cases hv : truthyOpt (aGet out "value") = true
    · simp only [hv, Bool.not_true, Bool.false_and, Bool.false_eq_true, if_false, if_true]
      cases hat : aGet out "type" with
      | none =>
        simp only [show defaultParamType.type.truthy = false from rfl,
          Bool.false_eq_true, if_false]
        cases hrp : resultParamsGo n out.children [] with
        | error e => intro h; exact absurd h (by simp)
        | ok rp =>
          dsimp only
          intro h
          have hres : _ = res := Option.some.inj (Except.ok.inj h)
          rw [← hres]
          refine ⟨?_, ?_, ?_, ?_, ?_⟩
          · simp only [Bool.or_false]
            exact shas_sset_same ..
          · intro hc
            exact absurd hc (by decide)
          · intro _ _
            exact sget_sset_same ..
          · intro T pt hT hTne hTch hlk
            exact absurd hT (by simp)
          · intro _
            rfl
      | some T =>
        by_cases hTe : (T != "") = true
        · simp only [hTe, if_true]
          cases hlk : lookupParamType T with
          | none => intro h; exact absurd h (by simp)
          | some pt =>
            dsimp only
            cases hrp : resultParamsGo n out.children [] with
            | error e => intro h; exact absurd h (by simp)
            | ok rp =>
              dsimp only
              by_cases htr : pt.type.truthy = true
              · simp only [htr, if_true]
                intro h
                have hres : _ = res := Option.some.inj (Except.ok.inj h)
                rw [← hres]
                refine ⟨?_, ?_, ?_, ?_, ?_⟩
                · simp only [Bool.or_false]
                  exact shas_sset_same ..
                · intro hc
                  exact absurd hc (by decide)
                · intro _ _
                  exact sget_sset_same ..
                · intro T2 pt2 hT2 hT2ne hT2ch hlk2
                  have hTT : T = T2 := Option.some.inj hT2
                  rw [← hTT] at hlk2
                  rw [hlk] at hlk2
                  have hpt : pt = pt2 := Option.some.inj hlk2
                  rw [← hpt, htr]
                  rw [shas_sset_ne _ _ _ _ (by decide)]
                  exact shas_sset_same ..
                · intro hd
                  rcases hd with hd | hd
                  · have hd2 : (T != "") = false := hd
                    rw [hTe] at hd2
                    exact absurd hd2 (by decide)
                  · exact absurd hd (by decide)
              · have htr2 : pt.type.truthy = false := by simpa using htr
                simp only [htr2, Bool.false_eq_true, if_false]
                intro h
                have hres : _ = res := Option.some.inj (Except.ok.inj h)
                rw [← hres]
                refine ⟨?_, ?_, ?_, ?_, ?_⟩
                · simp only [Bool.or_false]
                  exact shas_sset_same ..
                · intro hc
                  exact absurd hc (by decide)
                · intro _ _
                  exact sget_sset_same ..
                · intro T2 pt2 hT2 hT2ne hT2ch hlk2
                  have hTT : T = T2 := Option.some.inj hT2
                  rw [← hTT] at hlk2
                  rw [hlk] at hlk2
                  have hpt : pt = pt2 := Option.some.inj hlk2
                  rw [← hpt, htr2]
                  rfl
                · intro _
                  rfl
        · have hTe2 : (T != "") = false := by simpa using hTe
          simp only [hTe2, Bool.false_eq_true, if_false,
            show defaultParamType.type.truthy = false from rfl]
          cases hrp : resultParamsGo n out.children [] with
          | error e => intro h; exact absurd h (by simp)
          | ok rp =>
            dsimp only
            intro h
            have hres : _ = res := Option.some.inj (Except.ok.inj h)
            rw [← hres]
            have hTeq : T = "" := by simpa using hTe2
            refine ⟨?_, ?_, ?_, ?_, ?_⟩
            · simp only [Bool.or_false]
              exact shas_sset_same ..
            · intro hc
              exact absurd hc (by decide)
            · intro _ _
              exact sget_sset_same ..
            · intro T2 pt2 hT2 hT2ne hT2ch hlk2
              have hTT : T = T2 := Option.some.inj hT2
              rw [← hTT, hTeq] at hT2ne
              exact absurd rfl hT2ne
            · intro _
              rfl
    · have hv2 : truthyOpt (aGet out "value") = false := by simpa using hv
      by_cases htt : truthyOpt (aGet out "type") = true
      · simp only [hv2, htt, Bool.not_false, Bool.not_true, Bool.true_and, Bool.and_false,
          Bool.false_eq_true, if_false]
        cases hat : aGet out "type" with
        | none =>
          exfalso
          rw [hat] at htt
          exact absurd htt (by decide)
        | some T =>
          have hTe : (T != "") = true := by
            rw [hat] at htt
            simpa [truthyOpt] using htt
          simp only [hTe, if_true]
          cases hlk : lookupParamType T with
          | none => intro h; exact absurd h (by simp)
          | some pt =>
            dsimp only
            cases hrp : resultParamsGo n out.children [] with
            | error e => intro h; exact absurd h (by simp)
            | ok rp =>
              dsimp only
              by_cases htr : pt.type.truthy = true
              · simp only [htr, if_true]
                intro h
                have hres : _ = res := Option.some.inj (Except.ok.inj h)
                rw [← hres]
                refine ⟨?_, ?_, ?_, ?_, ?_⟩
                · simp only [Bool.or_self]
                  rfl
                · intro hc
                  exact absurd hc (by decide)
                · intro hc _
                  exact absurd hc (by decide)
                · intro T2 pt2 hT2 hT2ne hT2ch hlk2
                  have hTT : T = T2 := Option.some.inj hT2
                  rw [← hTT] at hlk2
                  rw [hlk] at hlk2
                  have hpt : pt = pt2 := Option.some.inj hlk2
                  rw [← hpt, htr]
                  exact shas_sset_same ..
                · intro hd
                  rcases hd with hd | hd
                  · exact absurd hd (by decide)
                  · exact absurd hd (by decide)
              · have htr2 : pt.type.truthy = false := by simpa using htr
                simp only [htr2, Bool.false_eq_true, if_false]
                intro h
                have hres : _ = res := Option.some.inj (Except.ok.inj h)
                rw [← hres]
                refine ⟨?_, ?_, ?_, ?_, ?_⟩
                · simp only [Bool.or_self]
                  rfl
                · intro hc
                  exact absurd hc (by decide)
                · intro hc _
                  exact absurd hc (by decide)
                · intro T2 pt2 hT2 hT2ne hT2ch hlk2
                  have hTT : T = T2 := Option.some.inj hT2
                  rw [← hTT] at hlk2
                  rw [hlk] at hlk2
                  have hpt : pt = pt2 := Option.some.inj hlk2
                  rw [← hpt, htr2]
                  rfl
                · intro _
                  rfl
      · have htt2 : truthyOpt (aGet out "type") = false := by simpa using htt
        simp only [hv2, htt2, Bool.not_false, Bool.and_self, if_true]
        intro h
        exact absurd h (by simp)

/-- Witness for the amended C5 at the concrete output with both a value
and an int type. -/
theorem c5_output_resolution_witness :
    buildResult 5 c5out1 = .ok (some c5res1) ∧
    (shas c5res1 "enum" =
      (truthyOpt (aGet c5out1 "value") || (aGet c5out1 "type" == some "choice")) ∧
    ((aGet c5out1 "type" == some "choice") = true →
      sget c5res1 "enum" = some (.list (outputChoiceValues c5out1.children))) ∧
    (truthyOpt (aGet c5out1 "value") = true →
      (aGet c5out1 "type" == some "choice") = false →
      sget c5res1 "enum" = some (.list [.str ((aGet c5out1 "value").getD "")])) ∧
    (∀ T pt, aGet c5out1 "type" = some T → T ≠ "" → T ≠ "choice" →
      lookupParamType T = some pt → shas c5res1 "schema" = pt.type.truthy) ∧
    ((truthyOpt (aGet c5out1 "type") = false ∨
      (aGet c5out1 "type" == some "choice") = true) →
      shas c5res1 "schema" = false)) :=
  ⟨rfl, c5_output_resolution 5 c5out1 c5res1 rfl⟩
